import Mathlib

/-!
Verification of the `gregorian` proleptic Gregorian calendar library.

This file gives a shallow embedding of the library's data model and
operations (months, years, year-months, dates, day-count conversions,
unix timestamps, calendar arithmetic, parsing and formatting), and proves
the specified properties about them.

Conventions of the embedding:
* Rust machine integers (`i16`, `i32`, `i64`, `u8`, `u16`) are modelled as
  `Int` (signed) or `Nat` (unsigned).  Rust's truncating `/` and `%` on
  signed integers are modelled by `Int.tdiv` and `Int.tmod`.  Where the
  source performs a narrowing `as i16` / `as i32` / `as u16` cast, the
  embedding applies the corresponding explicit two's-complement wrap.
* Rust `Result<T, E>` is modelled as `Except E T`; `Result<T, ()>` as
  `Option T`.
* The source's `Year` newtype around `i16` is modelled as a bare `Int`
  together with functions in the `Year` namespace.
-/

deriving instance DecidableEq for Except

namespace Gregorian

/-- Two's-complement wrap to the `i16` range, modelling a Rust `as i16` cast. -/
def wrapI16 (x : Int) : Int := (x + 32768) % 65536 - 32768

/-- Two's-complement wrap to the `i32` range, modelling a Rust `as i32` cast. -/
def wrapI32 (x : Int) : Int := (x + 2147483648) % 4294967296 - 2147483648

/-- Two's-complement wrap to the `u16` range, modelling a Rust `as u16` cast
of a value already known to be an integer (the result is a `Nat`). -/
def wrapU16 (x : Int) : Nat := (x % 65536).toNat

/-- The `Month` enum of src/month.rs: a month of the Gregorian calendar. -/
inductive Month where
  | January
  | February
  | March
  | April
  | May
  | June
  | July
  | August
  | September
  | October
  | November
  | December
deriving DecidableEq, Fintype

/-- The `InvalidMonthNumber` error of src/error.rs. -/
structure InvalidMonthNumber where
  number : Nat
deriving DecidableEq

/-- The `InvalidDayOfMonth` error of src/error.rs. -/
structure InvalidDayOfMonth where
  year : Int
  month : Month
  day : Nat
deriving DecidableEq

/-- The `InvalidDayOfYear` error of src/error.rs. -/
structure InvalidDayOfYear where
  year : Int
  day_of_year : Nat
deriving DecidableEq

/-- The `InvalidDate` error of src/error.rs. -/
inductive InvalidDate where
  | invalidMonthNumber (e : InvalidMonthNumber)
  | invalidDayOfMonth (e : InvalidDayOfMonth)
deriving DecidableEq

/-- The `DateParseError` of src/error.rs.  The constructor
`invalidDateFormat` models the source's `InvalidDateSyntax` variant (the
source variant carries no data). -/
inductive DateParseError where
  | invalidDateFormat
  | invalidDate (e : InvalidDate)
deriving DecidableEq

namespace Month

/-- `Month::to_number`: the month number in the range 1-12 (u8 in the source). -/
def to_number : Month → Nat
  | January => 1
  | February => 2
  | March => 3
  | April => 4
  | May => 5
  | June => 6
  | July => 7
  | August => 8
  | September => 9
  | October => 10
  | November => 11
  | December => 12

/-- `Month::new`: month from a month number in 1-12. -/
def new (month : Nat) : Except InvalidMonthNumber Month :=
  match month with
  | 1 => .ok January
  | 2 => .ok February
  | 3 => .ok March
  | 4 => .ok April
  | 5 => .ok May
  | 6 => .ok June
  | 7 => .ok July
  | 8 => .ok August
  | 9 => .ok September
  | 10 => .ok October
  | 11 => .ok November
  | 12 => .ok December
  | number => .error ⟨number⟩

/-- `Month::from_number` (private in the source): month from a number,
defaulting to January for out-of-range numbers. -/
def from_number (number : Int) : Month :=
  match number with
  | 1 => January
  | 2 => February
  | 3 => March
  | 4 => April
  | 5 => May
  | 6 => June
  | 7 => July
  | 8 => August
  | 9 => September
  | 10 => October
  | 11 => November
  | 12 => December
  | _ => January

/-- `Month::wrapping_add` (src/month.rs): add a number of months, wrapping
back to January after December.  `count` is an `i8` in the source. -/
def wrapping_add (m : Month) (count : Int) : Month :=
  let count := if count < 0 then count.tmod 12 + 12 else count.tmod 12
  let index := ((m.to_number : Int) - 1 + count).tmod 12
  from_number (index + 1)

/-- `Month::wrapping_sub`: the source takes the remainder modulo 12 before
negating, to prevent negating `i8::MIN`. -/
def wrapping_sub (m : Month) (count : Int) : Month :=
  m.wrapping_add (-(count.tmod 12))

/-- `Month::wrapping_next`. -/
def wrapping_next (m : Month) : Month := m.wrapping_add 1

/-- `Month::wrapping_prev`. -/
def wrapping_prev (m : Month) : Month := m.wrapping_add (-1)

end Month

namespace raw

/-- `raw::month_and_day_from_day_of_year` (src/raw.rs): month and day of
month for a day of year.  `Result<(Month, u8), ()>` is modelled as `Option`. -/
def month_and_day_from_day_of_year (day_of_year : Nat) (leap_year : Bool) :
    Option (Month × Nat) :=
  if !leap_year then
    if 1 ≤ day_of_year ∧ day_of_year ≤ 31 then some (.January, day_of_year)
    else if 32 ≤ day_of_year ∧ day_of_year ≤ 59 then some (.February, day_of_year - 31)
    else if 60 ≤ day_of_year ∧ day_of_year ≤ 90 then some (.March, day_of_year - 59)
    else if 91 ≤ day_of_year ∧ day_of_year ≤ 120 then some (.April, day_of_year - 90)
    else if 121 ≤ day_of_year ∧ day_of_year ≤ 151 then some (.May, day_of_year - 120)
    else if 152 ≤ day_of_year ∧ day_of_year ≤ 181 then some (.June, day_of_year - 151)
    else if 182 ≤ day_of_year ∧ day_of_year ≤ 212 then some (.July, day_of_year - 181)
    else if 213 ≤ day_of_year ∧ day_of_year ≤ 243 then some (.August, day_of_year - 212)
    else if 244 ≤ day_of_year ∧ day_of_year ≤ 273 then some (.September, day_of_year - 243)
    else if 274 ≤ day_of_year ∧ day_of_year ≤ 304 then some (.October, day_of_year - 273)
    else if 305 ≤ day_of_year ∧ day_of_year ≤ 334 then some (.November, day_of_year - 304)
    else if 335 ≤ day_of_year ∧ day_of_year ≤ 365 then some (.December, day_of_year - 334)
    else none
  else
    if 1 ≤ day_of_year ∧ day_of_year ≤ 31 then some (.January, day_of_year)
    else if 32 ≤ day_of_year ∧ day_of_year ≤ 60 then some (.February, day_of_year - 31)
    else if 61 ≤ day_of_year ∧ day_of_year ≤ 91 then some (.March, day_of_year - 60)
    else if 92 ≤ day_of_year ∧ day_of_year ≤ 121 then some (.April, day_of_year - 91)
    else if 122 ≤ day_of_year ∧ day_of_year ≤ 152 then some (.May, day_of_year - 121)
    else if 153 ≤ day_of_year ∧ day_of_year ≤ 182 then some (.June, day_of_year - 152)
    else if 183 ≤ day_of_year ∧ day_of_year ≤ 213 then some (.July, day_of_year - 182)
    else if 214 ≤ day_of_year ∧ day_of_year ≤ 244 then some (.August, day_of_year - 213)
    else if 245 ≤ day_of_year ∧ day_of_year ≤ 274 then some (.September, day_of_year - 244)
    else if 275 ≤ day_of_year ∧ day_of_year ≤ 305 then some (.October, day_of_year - 274)
    else if 306 ≤ day_of_year ∧ day_of_year ≤ 335 then some (.November, day_of_year - 305)
    else if 336 ≤ day_of_year ∧ day_of_year ≤ 366 then some (.December, day_of_year - 335)
    else none

/-- `raw::days_in_month` (src/raw.rs): the number of days in a month. -/
def days_in_month (month : Month) (leap_year : Bool) : Nat :=
  match month with
  | .January => 31
  | .February => if leap_year then 29 else 28
  | .March => 31
  | .April => 30
  | .May => 31
  | .June => 30
  | .July => 31
  | .August => 31
  | .September => 30
  | .October => 31
  | .November => 30
  | .December => 31

/-- `raw::start_day_of_year` (src/raw.rs): the day of year of the first day
of a month. -/
def start_day_of_year (month : Month) (leap_year : Bool) : Nat :=
  if !leap_year then
    match month with
    | .January => 1
    | .February => 32
    | .March => 60
    | .April => 91
    | .May => 121
    | .June => 152
    | .July => 182
    | .August => 213
    | .September => 244
    | .October => 274
    | .November => 305
    | .December => 335
  else
    match month with
    | .January => 1
    | .February => 32
    | .March => 61
    | .April => 92
    | .May => 122
    | .June => 153
    | .July => 183
    | .August => 214
    | .September => 245
    | .October => 275
    | .November => 306
    | .December => 336

/-- `raw::day_of_year` (src/raw.rs): the day of year of a day of month. -/
def day_of_year (month : Month) (day_of_month : Nat) (leap_year : Bool) : Nat :=
  start_day_of_year month leap_year - 1 + day_of_month

end raw

/-- `util::modulo_i32` (src/util.rs): mathematical modulo built from
Rust's truncating `%`. -/
def modulo_i32 (a b : Int) : Int := (a.tmod b + b).tmod b

/-- `util::modulo_i16` (src/util.rs): same computation at type `i16`. -/
def modulo_i16 (a b : Int) : Int := (a.tmod b + b).tmod b

namespace Year

/-- `Year::has_leap_day` (src/year.rs): whether the year has a leap day. -/
def has_leap_day (year : Int) : Bool :=
  year.tmod 4 == 0 && (year.tmod 100 != 0 || year.tmod 400 == 0)

/-- `Year::total_days` (src/year.rs): 366 for leap years, 365 otherwise. -/
def total_days (year : Int) : Nat :=
  if has_leap_day year then 366 else 365

/-- `Year::next`. -/
def next (year : Int) : Int := year + 1

/-- `Year::prev`. -/
def prev (year : Int) : Int := year - 1

end Year

/-- The `YearMonth` struct of src/year_month.rs: a month of a specific year. -/
structure YearMonth where
  year : Int
  month : Month
deriving DecidableEq

/-- The `Date` struct of src/date.rs: a year, month and day. -/
structure Date where
  year : Int
  month : Month
  day : Nat
deriving DecidableEq

/-- `Year::with_month` (src/year.rs). -/
def Year.with_month (year : Int) (month : Month) : YearMonth := ⟨year, month⟩

/-- `Year::first_day` (src/year.rs): January 1 of the year. -/
def Year.first_day (year : Int) : Date := ⟨year, .January, 1⟩

/-- `Year::last_day` (src/year.rs): December 31 of the year. -/
def Year.last_day (year : Int) : Date := ⟨year, .December, 31⟩

/-- `Year::with_day_of_year` (src/year.rs): combine a year with a 1-based
day of year. -/
def Year.with_day_of_year (year : Int) (day_of_year : Nat) :
    Except InvalidDayOfYear Date :=
  match raw.month_and_day_from_day_of_year day_of_year (Year.has_leap_day year) with
  | some (month, day_of_month) => .ok ⟨year, month, day_of_month⟩
  | none => .error ⟨year, day_of_year⟩

namespace YearMonth

/-- `YearMonth::total_days` (src/year_month.rs). -/
def total_days (ym : YearMonth) : Nat :=
  raw.days_in_month ym.month (Year.has_leap_day ym.year)

/-- `YearMonth::day_of_year` (src/year_month.rs). -/
def day_of_year (ym : YearMonth) : Nat :=
  raw.start_day_of_year ym.month (Year.has_leap_day ym.year)

/-- `YearMonth::next` (src/year_month.rs): the next month, rolling the year
forward after December. -/
def next (ym : YearMonth) : YearMonth :=
  match ym.month with
  | .December => ⟨Year.next ym.year, .January⟩
  | _ => ⟨ym.year, ym.month.wrapping_next⟩

/-- `YearMonth::prev` (src/year_month.rs): the previous month, rolling the
year backward after January. -/
def prev (ym : YearMonth) : YearMonth :=
  match ym.month with
  | .January => ⟨Year.prev ym.year, .December⟩
  | _ => ⟨ym.year, ym.month.wrapping_prev⟩

/-- `YearMonth::add_years` (src/year_month.rs): shifts the year only. -/
def add_years (ym : YearMonth) (years : Int) : YearMonth :=
  ⟨ym.year + years, ym.month⟩

/-- `YearMonth::sub_years` (src/year_month.rs). -/
def sub_years (ym : YearMonth) (years : Int) : YearMonth :=
  ⟨ym.year - years, ym.month⟩

/-- `YearMonth::add_months` (src/year_month.rs).  The source computes
`(self.month().to_number() - 1) as i32 + months`, takes the truncating
quotient and remainder by 12 (casting the quotient `as i16`), and decreases
the year by one more when the remainder is negative. -/
def add_months (ym : YearMonth) (months : Int) : YearMonth :=
  let months := ((ym.month.to_number : Int) - 1) + months
  let year := ym.year + wrapI16 (months.tdiv 12)
  let month := Month.January.wrapping_add (months.tmod 12)
  let year := if months.tmod 12 < 0 then year - 1 else year
  ⟨year, month⟩

/-- `YearMonth::sub_months` (src/year_month.rs): negates and adds. -/
def sub_months (ym : YearMonth) (months : Int) : YearMonth :=
  ym.add_months (-months)

/-- `YearMonth::first_day` (src/year_month.rs). -/
def first_day (ym : YearMonth) : Date := ⟨ym.year, ym.month, 1⟩

/-- `YearMonth::last_day` (src/year_month.rs). -/
def last_day (ym : YearMonth) : Date := ⟨ym.year, ym.month, ym.total_days⟩

end YearMonth

/-- `InvalidDayOfMonth::check` (src/error.rs): day validity check for a
year and month. -/
def InvalidDayOfMonth.check (year : Int) (month : Month) (day : Nat) :
    Except InvalidDayOfMonth Unit :=
  if day < 1 ∨ day > (YearMonth.mk year month).total_days then
    .error ⟨year, month, day⟩
  else
    .ok ()

/-- `InvalidDayOfMonth::next_valid` (src/error.rs): the first day of the
month after the invalid date's month. -/
def InvalidDayOfMonth.next_valid (e : InvalidDayOfMonth) : Date :=
  (YearMonth.next (Year.with_month e.year e.month)).first_day

/-- `InvalidDayOfMonth::prev_valid` (src/error.rs): the last day of the
invalid date's month. -/
def InvalidDayOfMonth.prev_valid (e : InvalidDayOfMonth) : Date :=
  (Year.with_month e.year e.month).last_day

/-- `YearMonth::with_day` (src/year_month.rs): validate a day and build a
`Date`. -/
def YearMonth.with_day (ym : YearMonth) (day : Nat) :
    Except InvalidDayOfMonth Date :=
  match InvalidDayOfMonth.check ym.year ym.month day with
  | .error e => .error e
  | .ok _ => .ok ⟨ym.year, ym.month, day⟩

/-- `DAYS_IN_400_YEAR` (src/date.rs): the total number of days in 400 years. -/
def DAYS_IN_400_YEAR : Int := 400 * 365 + 97

/-- `UNIX_EPOCH` (src/date.rs): the number of days since year 0 for
1970-01-01. -/
def UNIX_EPOCH : Int := DAYS_IN_400_YEAR * 4 + 370 * 365 + 90

namespace Date

/-- `Date::year_month` (src/date.rs). -/
def year_month (d : Date) : YearMonth := ⟨d.year, d.month⟩

/-- `Date::day_of_year` (src/date.rs). -/
def day_of_year (d : Date) : Nat :=
  raw.day_of_year d.month d.day (Year.has_leap_day d.year)

/-- `Date::days_since_year_zero` (src/date.rs): zero-based day count since
1 January 0000, with the source's `i16` subtraction
`self.year().to_number() - years` modelled as unbounded integer arithmetic.
For years in -32400..=32767 this is exactly the program's value.  For years
in -32768..=-32401 the source's subtraction evaluates to -32800 and
overflows `i16`: a debug build panics, while a release build wraps
two's-complement; on that range this idealized definition diverges from the
program, whose release behaviour is modelled by
`days_since_year_zero_wrapping` below (see `days_since_wrapping_eq` for the
proved agreement on the overflow-free range). -/
def days_since_year_zero (d : Date) : Int :=
  let years := modulo_i16 d.year 400
  let whole_cycles := (d.year - years).tdiv 400
  let leap_days := years.tdiv 4 - years.tdiv 100 + 1
  let leap_days := leap_days - (if Year.has_leap_day d.year then 1 else 0)
  let from_years := whole_cycles * DAYS_IN_400_YEAR + years * 365 + leap_days
  from_years + (d.day_of_year : Int) - 1

/-- `Date::days_since_year_zero` (src/date.rs) with the source's `i16`
subtraction `self.year().to_number() - years` modelled two's-complement
wrapping, which is what a release build computes.  For years in
-32400..=32767 the subtraction does not overflow and this agrees with
`Date.days_since_year_zero`; for years in -32768..=-32401 it wraps
(-32800 becomes 32736), which is the release-mode overflow behaviour
(a debug build panics instead). -/
def days_since_year_zero_wrapping (d : Date) : Int :=
  let years := modulo_i16 d.year 400
  let whole_cycles := (wrapI16 (d.year - years)).tdiv 400
  let leap_days := years.tdiv 4 - years.tdiv 100 + 1
  let leap_days := leap_days - (if Year.has_leap_day d.year then 1 else 0)
  let from_years := whole_cycles * DAYS_IN_400_YEAR + years * 365 + leap_days
  from_years + (d.day_of_year : Int) - 1

/-- `Date::from_days_since_year_zero` (src/date.rs): the date for a number
of days since 1 January 0000.  The source narrows the computed year with
`as i16` and the day of year with `as u16`. -/
def from_days_since_year_zero (days : Int) : Date :=
  let day_index := modulo_i32 days DAYS_IN_400_YEAR
  let whole_cycles := (days - day_index).tdiv DAYS_IN_400_YEAR
  let pretend_leap_days : Int :=
    if day_index ≥ 300 * 365 + 73 + 31 + 28 then 3
    else if day_index ≥ 200 * 365 + 49 + 31 + 28 then 2
    else if day_index ≥ 100 * 365 + 25 + 31 + 28 then 1
    else 0
  let four_year_cycles := (day_index + pretend_leap_days).tdiv (4 * 365 + 1)
  let day_of_four_year_cycle := (day_index + pretend_leap_days).tmod (4 * 365 + 1)
  let year_of_four_year_cycle := (day_of_four_year_cycle - 1).tdiv 365
  let day_of_year := day_of_four_year_cycle - year_of_four_year_cycle * 365
  let day_of_year := day_of_year - (if day_of_four_year_cycle ≥ 366 then 1 else 0)
  let day_of_year := day_of_year + 1
  let year := 400 * whole_cycles + 4 * four_year_cycles + year_of_four_year_cycle
  let year := wrapI16 year
  match raw.month_and_day_from_day_of_year (wrapU16 day_of_year)
      (year_of_four_year_cycle == 0) with
  | some (month, day_of_month) => ⟨year, month, day_of_month⟩
  | none => ⟨year, .January, 1⟩

/-- `Date::next` (src/date.rs): the next day. -/
def next (d : Date) : Date :=
  if d.day = d.year_month.total_days then
    (YearMonth.next d.year_month).first_day
  else
    ⟨d.year, d.month, d.day + 1⟩

/-- `Date::prev` (src/date.rs): the previous day. -/
def prev (d : Date) : Date :=
  if d.day = 1 then
    (YearMonth.prev d.year_month).last_day
  else
    ⟨d.year, d.month, d.day - 1⟩

/-- `Date::add_days` (src/date.rs). -/
def add_days (d : Date) (days : Int) : Date :=
  from_days_since_year_zero (d.days_since_year_zero + days)

/-- `Date::sub_days` (src/date.rs). -/
def sub_days (d : Date) (days : Int) : Date :=
  from_days_since_year_zero (d.days_since_year_zero - days)

/-- `Date::add_months` (src/date.rs). -/
def add_months (d : Date) (months : Int) : Except InvalidDayOfMonth Date :=
  (d.year_month.add_months months).with_day d.day

/-- `Date::sub_months` (src/date.rs).  The source body is identical to
`Date::add_months`: it calls `self.year_month().add_months(months)` without
negating the argument. -/
def sub_months (d : Date) (months : Int) : Except InvalidDayOfMonth Date :=
  (d.year_month.add_months months).with_day d.day

/-- `Date::add_years` (src/date.rs). -/
def add_years (d : Date) (years : Int) : Except InvalidDayOfMonth Date :=
  (d.year_month.add_years years).with_day d.day

/-- `Date::sub_years` (src/date.rs).  The source body is identical to
`Date::add_years`: it calls `self.year_month().add_years(years)` without
negating the argument. -/
def sub_years (d : Date) (years : Int) : Except InvalidDayOfMonth Date :=
  (d.year_month.add_years years).with_day d.day

/-- `Date::from_unix_timestamp` (src/date.rs): the date for a unix
timestamp, using a manually floored division by 86400. -/
def from_unix_timestamp (seconds : Int) : Date :=
  let days := seconds.tdiv (24 * 3600)
  let days := if seconds < 0 ∧ seconds ≠ days * 24 * 3600 then days - 1 else days
  from_days_since_year_zero (UNIX_EPOCH + wrapI32 days)

/-- `Date::to_unix_timestamp` (src/date.rs). -/
def to_unix_timestamp (d : Date) : Int :=
  let days := d.days_since_year_zero - UNIX_EPOCH
  60 * 60 * 24 * days

/-- `Date::new` (src/date.rs) at a raw month number (the instantiation used
by the parser): validates the month number, then the day. -/
def new (year : Int) (month : Nat) (day : Nat) : Except InvalidDate Date :=
  match Month.new month with
  | .error e => .error (.invalidMonthNumber e)
  | .ok m =>
    match (Year.with_month year m).with_day day with
    | .error e => .error (.invalidDayOfMonth e)
    | .ok d => .ok d

end Date

/-- Decimal digit to character, for the decimal formatting model. -/
def digit_char (d : Nat) : Char :=
  match d with
  | 0 => '0'
  | 1 => '1'
  | 2 => '2'
  | 3 => '3'
  | 4 => '4'
  | 5 => '5'
  | 6 => '6'
  | 7 => '7'
  | 8 => '8'
  | 9 => '9'
  | _ => '9'

/-- Decimal digit characters of a natural number with explicit recursion
fuel (always called with enough fuel), most significant digit first. -/
def nat_digit_chars_core (fuel n : Nat) : List Char :=
  match fuel with
  | 0 => []
  | fuel + 1 =>
    if n < 10 then [digit_char n]
    else nat_digit_chars_core fuel (n / 10) ++ [digit_char (n % 10)]

/-- Decimal digit characters of a natural number, most significant first,
modelling Rust's decimal `Display` of an unsigned integer. -/
def nat_digit_chars (n : Nat) : List Char := nat_digit_chars_core (n + 1) n

/-- Left-pad a character list with zeros to the given width, modelling
Rust's `{:0width}` padding of the part after the sign. -/
def pad_left (width : Nat) (s : List Char) : List Char :=
  List.replicate (width - s.length) '0' ++ s

/-- Rust `{:04}` formatting of an `i16`: total width at least 4 including
the sign, zeros inserted after the sign. -/
def format_i16_width4 (n : Int) : List Char :=
  if n < 0 then '-' :: pad_left 3 (nat_digit_chars (-n).toNat)
  else pad_left 4 (nat_digit_chars n.toNat)

/-- Rust `{:02}` formatting of a `u8`. -/
def format_nat_width2 (n : Nat) : List Char :=
  pad_left 2 (nat_digit_chars n)

/-- The `Display` implementation for `Date` (src/date.rs):
`"{:04}-{:02}-{:02}"` applied to year number, month number and day. -/
def Date.format (d : Date) : List Char :=
  format_i16_width4 d.year ++
    '-' :: (format_nat_width2 d.month.to_number ++
      '-' :: format_nat_width2 d.day)

/-- ASCII decimal digit test, as used by Rust's integer `from_str`. -/
def is_ascii_digit (c : Char) : Bool :=
  48 ≤ c.toNat && c.toNat ≤ 57

/-- Value of a list of decimal digit characters, most significant first. -/
def digits_val (cs : List Char) : Nat :=
  cs.foldl (fun a c => a * 10 + (c.toNat - 48)) 0

/-- Parse an unsigned decimal digit string: fails on an empty string or any
non-digit character, like Rust's `from_str_radix` after sign stripping. -/
def parse_nat_digits (cs : List Char) : Option Nat :=
  if cs ≠ [] ∧ cs.all is_ascii_digit then some (digits_val cs) else none

/-- Rust `u8::from_str`: optional leading `+`, digits only, value at most
255 (the source only uses the resulting value, modelled as `Nat`). -/
def parse_u8 (cs : List Char) : Option Nat :=
  match cs with
  | [] => none
  | c :: rest =>
    if c = '+' then
      (parse_nat_digits rest).bind fun n => if n ≤ 255 then some n else none
    else
      (parse_nat_digits (c :: rest)).bind fun n => if n ≤ 255 then some n else none

/-- Rust `i16::from_str`: optional leading sign, digits only, value within
the `i16` range. -/
def parse_i16 (cs : List Char) : Option Int :=
  match cs with
  | [] => none
  | c :: rest =>
    if c = '-' then
      (parse_nat_digits rest).bind fun n =>
        if n ≤ 32768 then some (-(n : Int)) else none
    else if c = '+' then
      (parse_nat_digits rest).bind fun n =>
        if n ≤ 32767 then some ((n : Int)) else none
    else
      (parse_nat_digits (c :: rest)).bind fun n =>
        if n ≤ 32767 then some ((n : Int)) else none

/-- Split a character list at the first occurrence of a separator; `none`
when the separator does not occur.  Building block for the `splitn(3, '-')`
of the source's `FromStr` implementation. -/
def split_once (sep : Char) : List Char → Option (List Char × List Char)
  | [] => none
  | c :: rest =>
    if c = sep then some ([], rest)
    else (split_once sep rest).map fun p => (c :: p.1, p.2)

/-- The `FromStr` implementation for `Date` (src/date.rs): split on the
first two `-` characters into three fields (the third field is the verbatim
remainder), parse the fields as `i16`, `u8`, `u8`, then validate with
`Date::new`.  A missing field or failed number parse is reported as the
source's `InvalidDateSyntax` (here `invalidDateFormat`). -/
def Date.from_str (data : List Char) : Except DateParseError Date :=
  match split_once '-' data with
  | none => .error .invalidDateFormat
  | some (yearF, rest1) =>
    match split_once '-' rest1 with
    | none => .error .invalidDateFormat
    | some (monthF, dayF) =>
      match parse_i16 yearF with
      | none => .error .invalidDateFormat
      | some y =>
        match parse_u8 monthF with
        | none => .error .invalidDateFormat
        | some mo =>
          match parse_u8 dayF with
          | none => .error .invalidDateFormat
          | some dd =>
            match Date.new y mo dd with
            | .error e => .error (.invalidDate e)
            | .ok date => .ok date

/-- The `Date` validity invariant of the library:
`1 <= day <= YearMonth(year, month).total_days()`. -/
def ValidDate (d : Date) : Prop :=
  1 ≤ d.day ∧ d.day ≤ d.year_month.total_days

instance (d : Date) : Decidable (ValidDate d) := by
  unfold ValidDate
  infer_instance

end Gregorian

namespace Gregorian

/-!
Bridging lemmas: Rust's truncating division and remainder (`Int.tdiv`,
`Int.tmod`) in terms of Euclidean division and remainder, wrap casts on
in-range values, and the leap-year rule in arithmetic form.
-/

theorem tdiv_to_ediv (a : Int) {b : Int} (hb : 0 < b) :
    a.tdiv b = if 0 ≤ a then a / b else -((-a) / b) := by
  by_cases h : 0 ≤ a
  · rw [if_pos h, Int.tdiv_eq_ediv h hb.le]
  · rw [if_neg h]
    have ha : a = -(-a) := by ring
    conv_lhs => rw [ha]
    rw [Int.neg_tdiv, Int.tdiv_eq_ediv (by omega) hb.le]

theorem tmod_to_emod (a : Int) {b : Int} (hb : 0 < b) :
    a.tmod b = if 0 ≤ a then a % b else -((-a) % b) := by
  rw [Int.tmod_def, tdiv_to_ediv a hb]
  by_cases h : 0 ≤ a
  · rw [if_pos h, if_pos h, Int.emod_def]
  · rw [if_neg h, if_neg h, Int.emod_def]
    ring

theorem wrapI16_eq_self {x : Int} (h1 : -32768 ≤ x) (h2 : x ≤ 32767) :
    wrapI16 x = x := by
  unfold wrapI16
  omega

theorem wrapI32_eq_self {x : Int} (h1 : -2147483648 ≤ x) (h2 : x ≤ 2147483647) :
    wrapI32 x = x := by
  unfold wrapI32
  omega

theorem modulo_i16_400 (a : Int) : modulo_i16 a 400 = a % 400 := by
  unfold modulo_i16
  rw [tmod_to_emod a (by norm_num)]
  by_cases h : 0 ≤ a
  · rw [if_pos h, Int.tmod_eq_emod (by omega) (by norm_num)]
    omega
  · rw [if_neg h, Int.tmod_eq_emod (by omega) (by norm_num)]
    omega

theorem modulo_i32_146097 (a : Int) : modulo_i32 a 146097 = a % 146097 := by
  unfold modulo_i32
  rw [tmod_to_emod a (by norm_num)]
  by_cases h : 0 ≤ a
  · rw [if_pos h, Int.tmod_eq_emod (by omega) (by norm_num)]
    omega
  · rw [if_neg h, Int.tmod_eq_emod (by omega) (by norm_num)]
    omega

theorem has_leap_day_iff (y : Int) :
    Year.has_leap_day y = true ↔ (y % 4 = 0 ∧ (y % 100 ≠ 0 ∨ y % 400 = 0)) := by
  unfold Year.has_leap_day
  rw [tmod_to_emod y (show (0:Int) < 4 by norm_num),
    tmod_to_emod y (show (0:Int) < 100 by norm_num),
    tmod_to_emod y (show (0:Int) < 400 by norm_num)]
  simp only [Bool.and_eq_true, beq_iff_eq, Bool.or_eq_true, bne_iff_ne, ne_eq]
  split_ifs <;> omega

theorem has_leap_day_periodic (q Y : Int) :
    Year.has_leap_day (400 * q + Y) = Year.has_leap_day Y := by
  have key : Year.has_leap_day (400 * q + Y) = true ↔ Year.has_leap_day Y = true := by
    rw [has_leap_day_iff, has_leap_day_iff]
    omega
  cases b2 : Year.has_leap_day Y with
  | true => exact key.mpr b2
  | false =>
    cases b1 : Year.has_leap_day (400 * q + Y) with
    | false => rfl
    | true => exact absurd (key.mp b1) (by simp [b2])

end Gregorian

namespace Gregorian

/-!
Characterization of the day-count conversion algorithms: `yearStartAux`
gives a closed floor-division form for the day count of 1 January, and
`from_days_spec` states that `Date::from_days_since_year_zero` decodes any
day count into a valid day of a (pre-wrap) year that encodes back to the
same day count.
-/

theorem Month.to_number_bounds (m : Month) : 1 ≤ m.to_number ∧ m.to_number ≤ 12 := by
  cases m <;> simp [Month.to_number]

theorem Month.from_number_to_number (m : Month) :
    Month.from_number ((m.to_number : Nat) : Int) = m := by
  cases m <;> rfl

/-- Proof helper: closed form for the day count of 1 January of a year,
with floor division. -/
def yearStartAux (y : Int) : Int :=
  365 * y + y / 4 - y / 100 + y / 400 + 1 -
    (if Year.has_leap_day y = true then 1 else 0)

theorem days_since_year_zero_eq (y : Int) (m : Month) (d : Nat) :
    Date.days_since_year_zero ⟨y, m, d⟩ =
      yearStartAux y + (raw.day_of_year m d (Year.has_leap_day y) : Int) - 1 := by
  show (let years := modulo_i16 y 400
    let whole_cycles := (y - years).tdiv 400
    let leap_days := years.tdiv 4 - years.tdiv 100 + 1
    let leap_days := leap_days - (if Year.has_leap_day y then 1 else 0)
    let from_years := whole_cycles * DAYS_IN_400_YEAR + years * 365 + leap_days
    from_years + (Date.day_of_year ⟨y, m, d⟩ : Int) - 1) = _
  simp only [modulo_i16_400]
  have h400 : y - y % 400 = 400 * (y / 400) := by omega
  rw [h400, Int.mul_tdiv_cancel_left _ (by norm_num),
    Int.tdiv_eq_ediv (Int.emod_nonneg y (by norm_num)) (by norm_num),
    Int.tdiv_eq_ediv (Int.emod_nonneg y (by norm_num)) (by norm_num)]
  unfold yearStartAux DAYS_IN_400_YEAR Date.day_of_year
  by_cases hL : Year.has_leap_day y = true <;> simp only [hL, if_true, if_false] <;> omega

theorem days_since_wrapping_eq (y : Int) (m : Month) (d : Nat)
    (h1 : -32400 ≤ y) (h2 : y ≤ 32767) :
    Date.days_since_year_zero_wrapping ⟨y, m, d⟩ =
      Date.days_since_year_zero ⟨y, m, d⟩ := by
  show (let years := modulo_i16 y 400
    let whole_cycles := (wrapI16 (y - years)).tdiv 400
    let leap_days := years.tdiv 4 - years.tdiv 100 + 1
    let leap_days := leap_days - (if Year.has_leap_day y then 1 else 0)
    let from_years := whole_cycles * DAYS_IN_400_YEAR + years * 365 + leap_days
    from_years + (Date.day_of_year ⟨y, m, d⟩ : Int) - 1) =
    (let years := modulo_i16 y 400
    let whole_cycles := (y - years).tdiv 400
    let leap_days := years.tdiv 4 - years.tdiv 100 + 1
    let leap_days := leap_days - (if Year.has_leap_day y then 1 else 0)
    let from_years := whole_cycles * DAYS_IN_400_YEAR + years * 365 + leap_days
    from_years + (Date.day_of_year ⟨y, m, d⟩ : Int) - 1)
  simp only [modulo_i16_400]
  rw [wrapI16_eq_self (by omega) (by omega)]

theorem yearStartAux_step (y : Int) :
    yearStartAux (y + 1) =
      yearStartAux y + 365 + (if Year.has_leap_day y = true then 1 else 0) := by
  unfold yearStartAux
  have h1 := has_leap_day_iff y
  have h2 := has_leap_day_iff (y + 1)
  cases hb1 : Year.has_leap_day y <;> cases hb2 : Year.has_leap_day (y + 1) <;>
    rw [hb1] at h1 <;> rw [hb2] at h2 <;> simp at h1 h2 ⊢ <;> omega

theorem yearStartAux_add_nat (y : Int) :
    ∀ n : Nat, yearStartAux y + 365 * n ≤ yearStartAux (y + n)
  | 0 => by simp
  | n + 1 => by
    have ih := yearStartAux_add_nat y n
    have st := yearStartAux_step (y + n)
    have hite : (0:Int) ≤ if Year.has_leap_day (y + n) = true then 1 else 0 := by
      split <;> omega
    have hc : y + ((n : Nat) + 1 : Nat) = (y + n) + 1 := by push_cast; ring
    rw [hc]
    omega

theorem yearStartAux_separation {y1 y2 : Int} (h : y1 < y2) :
    yearStartAux y1 + 365 + (if Year.has_leap_day y1 = true then 1 else 0) ≤
      yearStartAux y2 := by
  have st := yearStartAux_step y1
  have mono := yearStartAux_add_nat (y1 + 1) (y2 - y1 - 1).toNat
  have hc : y1 + 1 + ((y2 - y1 - 1).toNat : Int) = y2 := by omega
  rw [hc] at mono
  omega

theorem yearStartAux_periodic (q Y : Int) (h0 : 0 ≤ Y) (h4 : Y < 400) :
    yearStartAux (400 * q + Y) = 146097 * q + yearStartAux Y := by
  unfold yearStartAux
  rw [has_leap_day_periodic]
  by_cases b : Year.has_leap_day Y = true <;> simp only [b, if_true, if_false] <;> omega

/-- Proof helper: checks one row of the day-of-year table against the
month-length table and `raw.day_of_year`. -/
def table_row_ok (doy : Nat) (f : Bool) : Bool :=
  match raw.month_and_day_from_day_of_year doy f with
  | some (m, dm) =>
    decide (1 ≤ dm) && decide (dm ≤ raw.days_in_month m f) &&
      decide (raw.day_of_year m dm f = doy)
  | none => false

/-- Proof helper: checks one row of the leap-year day-of-year table against
the non-leap month data, as used for the pretend leap days of century years. -/
def table_row_century_ok (doy : Nat) : Bool :=
  match raw.month_and_day_from_day_of_year doy true with
  | some (m, dm) =>
    decide (1 ≤ dm) && decide (dm ≤ raw.days_in_month m false) &&
      decide (raw.day_of_year m dm false = doy - (if 61 ≤ doy then 1 else 0))
  | none => false

set_option maxRecDepth 4000 in
theorem table_total_leap : ∀ k : Fin 366, table_row_ok (k.1 + 1) true = true := by
  decide

set_option maxRecDepth 4000 in
theorem table_total_nonleap : ∀ k : Fin 365, table_row_ok (k.1 + 1) false = true := by
  decide

set_option maxRecDepth 4000 in
theorem table_century :
    ∀ k : Fin 366, k.1 + 1 ≠ 60 → table_row_century_ok (k.1 + 1) = true := by
  decide

theorem table_none_of_gt {doy : Nat} {f : Bool}
    (h : 365 + (if f then 1 else 0) < doy) :
    raw.month_and_day_from_day_of_year doy f = none := by
  cases f
  case false =>
    have h365 : 365 < doy := by simpa using h
    unfold raw.month_and_day_from_day_of_year
    rw [if_pos (by decide : (!false) = true)]
    rw [if_neg (by omega : ¬(1 ≤ doy ∧ doy ≤ 31)), if_neg (by omega : ¬(32 ≤ doy ∧ doy ≤ 59)),
      if_neg (by omega : ¬(60 ≤ doy ∧ doy ≤ 90)), if_neg (by omega : ¬(91 ≤ doy ∧ doy ≤ 120)),
      if_neg (by omega : ¬(121 ≤ doy ∧ doy ≤ 151)), if_neg (by omega : ¬(152 ≤ doy ∧ doy ≤ 181)),
      if_neg (by omega : ¬(182 ≤ doy ∧ doy ≤ 212)), if_neg (by omega : ¬(213 ≤ doy ∧ doy ≤ 243)),
      if_neg (by omega : ¬(244 ≤ doy ∧ doy ≤ 273)), if_neg (by omega : ¬(274 ≤ doy ∧ doy ≤ 304)),
      if_neg (by omega : ¬(305 ≤ doy ∧ doy ≤ 334)), if_neg (by omega : ¬(335 ≤ doy ∧ doy ≤ 365))]
  case true =>
    have h366 : 366 < doy := by simpa using h
    unfold raw.month_and_day_from_day_of_year
    rw [if_neg (by decide : ¬((!true) = true))]
    rw [if_neg (by omega : ¬(1 ≤ doy ∧ doy ≤ 31)), if_neg (by omega : ¬(32 ≤ doy ∧ doy ≤ 60)),
      if_neg (by omega : ¬(61 ≤ doy ∧ doy ≤ 91)), if_neg (by omega : ¬(92 ≤ doy ∧ doy ≤ 121)),
      if_neg (by omega : ¬(122 ≤ doy ∧ doy ≤ 152)), if_neg (by omega : ¬(153 ≤ doy ∧ doy ≤ 182)),
      if_neg (by omega : ¬(183 ≤ doy ∧ doy ≤ 213)), if_neg (by omega : ¬(214 ≤ doy ∧ doy ≤ 244)),
      if_neg (by omega : ¬(245 ≤ doy ∧ doy ≤ 274)), if_neg (by omega : ¬(275 ≤ doy ∧ doy ≤ 305)),
      if_neg (by omega : ¬(306 ≤ doy ∧ doy ≤ 335)), if_neg (by omega : ¬(336 ≤ doy ∧ doy ≤ 366))]


theorem table_zero (f : Bool) : raw.month_and_day_from_day_of_year 0 f = none := by
  cases f <;> rfl

theorem table_valid {doy : Nat} {f : Bool} {m : Month} {dm : Nat}
    (h : raw.month_and_day_from_day_of_year doy f = some (m, dm)) :
    1 ≤ dm ∧ dm ≤ raw.days_in_month m f ∧ 1 ≤ doy ∧ doy ≤ 365 + (if f then 1 else 0) ∧
      raw.day_of_year m dm f = doy := by
  have hpos : 1 ≤ doy := by
    rcases Nat.eq_zero_or_pos doy with h0 | h1
    · rw [h0, table_zero] at h
      exact absurd h (by simp)
    · exact h1
  have hle : doy ≤ 365 + (if f then 1 else 0) := by
    by_contra hc
    rw [table_none_of_gt (by omega)] at h
    exact absurd h (by simp)
  have hdoy : doy - 1 + 1 = doy := by omega
  have hrow : table_row_ok doy f = true := by
    cases f
    · have hk : doy - 1 < 365 := by simp at hle; omega
      have := table_total_nonleap ⟨doy - 1, hk⟩
      rwa [hdoy] at this
    · have hk : doy - 1 < 366 := by simp at hle; omega
      have := table_total_leap ⟨doy - 1, hk⟩
      rwa [hdoy] at this
  unfold table_row_ok at hrow
  rw [h] at hrow
  simp only [Bool.and_eq_true, decide_eq_true_eq] at hrow
  exact ⟨hrow.1.1, hrow.1.2, hpos, hle, hrow.2⟩

theorem day_of_year_bounds (m : Month) (dm : Nat) (f : Bool)
    (h1 : 1 ≤ dm) (h2 : dm ≤ raw.days_in_month m f) :
    1 ≤ raw.day_of_year m dm f ∧
      raw.day_of_year m dm f ≤ 365 + (if f then 1 else 0) := by
  cases m <;> cases f <;>
    simp_all [raw.day_of_year, raw.start_day_of_year, raw.days_in_month] <;> omega

theorem wrapU16_small {x : Int} (h0 : 0 ≤ x) (h1 : x < 65536) :
    wrapU16 x = x.toNat := by
  unfold wrapU16
  omega

set_option maxHeartbeats 1000000 in
theorem from_days_spec (days : Int) :
    ∃ (y : Int) (m : Month) (dm : Nat),
      Date.from_days_since_year_zero days = ⟨wrapI16 y, m, dm⟩ ∧
      1 ≤ dm ∧ dm ≤ raw.days_in_month m (Year.has_leap_day y) ∧
      yearStartAux y + (raw.day_of_year m dm (Year.has_leap_day y) : Int) - 1 = days := by
  have hD : DAYS_IN_400_YEAR = (146097 : Int) := by norm_num [DAYS_IN_400_YEAR]
  simp only [Date.from_days_since_year_zero, hD, modulo_i32_146097,
    show (4 * 365 + 1 : Int) = 1461 from by norm_num,
    show (300 * 365 + 73 + 31 + 28 : Int) = 109632 from by norm_num,
    show (200 * 365 + 49 + 31 + 28 : Int) = 73108 from by norm_num,
    show (100 * 365 + 25 + 31 + 28 : Int) = 36584 from by norm_num]
  set r := days % 146097 with hr_def
  have hr0 : 0 ≤ r := Int.emod_nonneg days (by norm_num)
  have hr1 : r < 146097 := Int.emod_lt_of_pos days (by norm_num)
  set q := days / 146097 with hq_def
  rw [show days - r = 146097 * q from by omega,
    Int.mul_tdiv_cancel_left _ (by norm_num : (146097:Int) ≠ 0)]
  obtain ⟨p, hpeq, hp⟩ :
      ∃ p : Int,
        (if r ≥ 109632 then (3:Int)
          else if r ≥ 73108 then 2
          else if r ≥ 36584 then 1
          else 0) = p ∧
        ((p = 3 ∧ 109632 ≤ r) ∨ (p = 2 ∧ 73108 ≤ r ∧ r < 109632) ∨
          (p = 1 ∧ 36584 ≤ r ∧ r < 73108) ∨ (p = 0 ∧ r < 36584)) := by
    split_ifs with h1 h2 h3 <;> exact ⟨_, rfl, by omega⟩
  rw [hpeq]
  rw [Int.tdiv_eq_ediv (show (0:Int) ≤ r + p by omega) (by norm_num : (0:Int) ≤ 1461),
    Int.tmod_eq_emod (show (0:Int) ≤ r + p by omega) (by norm_num : (0:Int) ≤ 1461)]
  set fc := (r + p) / 1461 with hfc_def
  set dc := (r + p) % 1461 with hdc_def
  have hdc0 : 0 ≤ dc := Int.emod_nonneg _ (by norm_num)
  have hdc1 : dc < 1461 := Int.emod_lt_of_pos _ (by norm_num)
  have hsd : r + p = 1461 * fc + dc := by
    rw [hfc_def, hdc_def]
    omega
  obtain ⟨yc, hyceq, hyc⟩ :
      ∃ yc : Int, (dc - 1).tdiv 365 = yc ∧
        ((dc = 0 ∧ yc = 0) ∨ (1 ≤ dc ∧ yc = (dc - 1) / 365)) := by
    by_cases hdcz : dc = 0
    · refine ⟨0, ?_, Or.inl ⟨hdcz, rfl⟩⟩
      rw [hdcz]
      decide
    · exact ⟨(dc - 1) / 365, Int.tdiv_eq_ediv (by omega) (by norm_num),
        Or.inr ⟨by omega, rfl⟩⟩
  rw [hyceq]
  have hyc03 : 0 ≤ yc ∧ yc ≤ 3 := by omega
  have hfc0 : 0 ≤ fc := by omega
  have hfc99 : fc ≤ 99 := by omega
  have hY4 : 4 * fc + yc < 400 := by omega
  by_cases hyc0 : yc = 0
  · -- pretend-leap decoding path: first year of a four-year block
    rw [show ((yc == 0) : Bool) = true from by simp [hyc0]]
    have h366 : ¬(dc ≥ 366) := by omega
    rw [if_neg h366]
    rw [wrapU16_small (by omega) (by omega)]
    set N := (dc - yc * 365 - 0 + 1).toNat with hN_def
    have hNval : (N : Int) = dc + 1 := by
      rw [hN_def]
      omega
    have hN1 : 1 ≤ N := by omega
    have hN366 : N ≤ 366 := by omega
    rcases htab : raw.month_and_day_from_day_of_year N true with _ | ⟨m, dm⟩
    · exfalso
      have hrow := table_total_leap ⟨N - 1, by omega⟩
      unfold table_row_ok at hrow
      rw [show N - 1 + 1 = N from by omega, htab] at hrow
      simp at hrow
    · simp only [htab]
      have hrow := table_total_leap ⟨N - 1, by omega⟩
      unfold table_row_ok at hrow
      rw [show N - 1 + 1 = N from by omega, htab] at hrow
      simp only [Bool.and_eq_true, decide_eq_true_eq] at hrow
      obtain ⟨⟨hdm1, hdm2⟩, hdoy⟩ := hrow
      refine ⟨400 * q + 4 * fc + yc, m, dm, rfl, hdm1, ?_, ?_⟩
      all_goals
        have hper : Year.has_leap_day (400 * q + 4 * fc + yc) =
            Year.has_leap_day (4 * fc + yc) := by
          rw [show 400 * q + 4 * fc + yc = 400 * q + (4 * fc + yc) from by ring,
            has_leap_day_periodic]
      · -- day of month bound
        by_cases hcent : 4 * fc + yc = 100 ∨ 4 * fc + yc = 200 ∨ 4 * fc + yc = 300
        · have hlyf : Year.has_leap_day (4 * fc + yc) = false := by
            have : ¬(Year.has_leap_day (4 * fc + yc) = true) := by
              rw [has_leap_day_iff]
              omega
            simpa using this
          rw [hper, hlyf]
          have hN60 : N - 1 + 1 ≠ 60 := by omega
          have hNk : N - 1 < 366 := by omega
          have hcrow := table_century ⟨N - 1, hNk⟩ hN60
          unfold table_row_century_ok at hcrow
          rw [show N - 1 + 1 = N from by omega, htab] at hcrow
          simp only [Bool.and_eq_true, decide_eq_true_eq] at hcrow
          exact hcrow.1.2
        · have hlyt : Year.has_leap_day (4 * fc + yc) = true := by
            rw [has_leap_day_iff]
            omega
          rw [hper, hlyt]
          exact hdm2
      · -- day-count equation
        rw [show 400 * q + 4 * fc + yc = 400 * q + (4 * fc + yc) from by ring,
          yearStartAux_periodic q _ (by omega) (by omega),
          show Year.has_leap_day (400 * q + (4 * fc + yc)) =
            Year.has_leap_day (4 * fc + yc) from by rw [has_leap_day_periodic]]
        unfold yearStartAux
        by_cases hcent : 4 * fc + yc = 100 ∨ 4 * fc + yc = 200 ∨ 4 * fc + yc = 300
        · have hlyf : Year.has_leap_day (4 * fc + yc) = false := by
            have : ¬(Year.has_leap_day (4 * fc + yc) = true) := by
              rw [has_leap_day_iff]
              omega
            simpa using this
          rw [if_neg (by simp [hlyf]), hlyf]
          have hN60 : N - 1 + 1 ≠ 60 := by omega
          have hNk : N - 1 < 366 := by omega
          have hcrow := table_century ⟨N - 1, hNk⟩ hN60
          unfold table_row_century_ok at hcrow
          rw [show N - 1 + 1 = N from by omega, htab] at hcrow
          simp only [Bool.and_eq_true, decide_eq_true_eq] at hcrow
          have hdoyf := hcrow.2
          rw [hdoyf]
          by_cases h61 : 61 ≤ N
          · rw [if_pos h61]
            omega
          · rw [if_neg h61]
            omega
        · have hlyt : Year.has_leap_day (4 * fc + yc) = true := by
            rw [has_leap_day_iff]
            omega
          rw [if_pos hlyt, hlyt, hdoy]
          omega
  · -- ordinary decoding path: later year of a four-year block
    rw [show ((yc == 0) : Bool) = false from by simp [hyc0]]
    have h366 : dc ≥ 366 := by omega
    rw [if_pos h366]
    rw [wrapU16_small (by omega) (by omega)]
    set N := (dc - yc * 365 - 1 + 1).toNat with hN_def
    have hNval : (N : Int) = dc - yc * 365 := by
      rw [hN_def]
      omega
    have hN1 : 1 ≤ N := by omega
    have hN365 : N ≤ 365 := by omega
    rcases htab : raw.month_and_day_from_day_of_year N false with _ | ⟨m, dm⟩
    · exfalso
      have hrow := table_total_nonleap ⟨N - 1, by omega⟩
      unfold table_row_ok at hrow
      rw [show N - 1 + 1 = N from by omega, htab] at hrow
      simp at hrow
    · simp only [htab]
      have hrow := table_total_nonleap ⟨N - 1, by omega⟩
      unfold table_row_ok at hrow
      rw [show N - 1 + 1 = N from by omega, htab] at hrow
      simp only [Bool.and_eq_true, decide_eq_true_eq] at hrow
      obtain ⟨⟨hdm1, hdm2⟩, hdoy⟩ := hrow
      refine ⟨400 * q + 4 * fc + yc, m, dm, rfl, hdm1, ?_, ?_⟩
      all_goals
        have hlyf : Year.has_leap_day (400 * q + 4 * fc + yc) = false := by
          have : ¬(Year.has_leap_day (400 * q + 4 * fc + yc) = true) := by
            rw [has_leap_day_iff]
            omega
          simpa using this
      · rw [hlyf]
        exact hdm2
      · have hlyf2 : Year.has_leap_day (4 * fc + yc) = false := by
          have : ¬(Year.has_leap_day (4 * fc + yc) = true) := by
            rw [has_leap_day_iff]
            omega
          simpa using this
        rw [show 400 * q + 4 * fc + yc = 400 * q + (4 * fc + yc) from by ring,
          yearStartAux_periodic q _ (by omega) (by omega)]
        unfold yearStartAux
        rw [if_neg (by simp [hlyf2]),
          show (400 * q + (4 * fc + yc)) = 400 * q + 4 * fc + yc from by ring, hlyf,
          hdoy]
        have he4 : (4 * fc + yc) / 4 = fc := by omega
        have hg400 : (4 * fc + yc) / 400 = 0 := by omega
        have hregion :
            (p = 0 ∧ 4 * fc + yc < 100) ∨
              (p = 1 ∧ 100 < 4 * fc + yc ∧ 4 * fc + yc < 200) ∨
              (p = 2 ∧ 200 < 4 * fc + yc ∧ 4 * fc + yc < 300) ∨
              (p = 3 ∧ 300 < 4 * fc + yc) := by
          omega
        have hf100 : (4 * fc + yc) / 100 = p := by omega
        omega

end Gregorian

/-!
Finite facts about the month tables, the day-by-day enumeration lemmas for
`Date::next` and `Date::prev`, the two-sided round-trip between dates and
day counts, and the theorems for the specified claims C1-C10.
-/

namespace Gregorian

/-- Finite month-boundary fact: within a year, the first day of the next
month follows the last day of a month. -/
theorem month_rollover (m : Month) (f : Bool) (h : m ≠ Month.December) :
    raw.day_of_year (m.wrapping_next) 1 f =
      raw.day_of_year m (raw.days_in_month m f) f + 1 := by
  revert h
  cases m <;> cases f <;> decide

theorem day_of_year_succ (m : Month) (d : Nat) (f : Bool) :
    raw.day_of_year m (d + 1) f = raw.day_of_year m d f + 1 := by
  have h1 : 1 ≤ raw.start_day_of_year m f := by cases m <;> cases f <;> decide
  unfold raw.day_of_year
  omega

theorem next_days_since (d : Date) (h : ValidDate d) :
    (d.next).days_since_year_zero = d.days_since_year_zero + 1 := by
  obtain ⟨y, m, dm⟩ := d
  obtain ⟨h1, h2⟩ := h
  unfold Date.next
  by_cases hlast : dm = (Date.year_month ⟨y, m, dm⟩).total_days
  · rw [if_pos hlast]
    by_cases hdec : m = Month.December
    · subst hdec
      have hme : (YearMonth.next (Date.year_month ⟨y, Month.December, dm⟩)).first_day =
          ⟨y + 1, Month.January, 1⟩ := by
        with_unfolding_all rfl
      rw [hme, days_since_year_zero_eq, days_since_year_zero_eq]
      have hstep := yearStartAux_step y
      have hdm : dm = 31 := by
        simpa [Date.year_month, YearMonth.total_days, raw.days_in_month] using hlast
      subst hdm
      have hdec31 : ∀ f : Bool, raw.day_of_year Month.December 31 f =
          365 + (if f then 1 else 0) := by decide
      rw [hdec31]
      have hjan : ∀ f : Bool, raw.day_of_year Month.January 1 f = 1 := by decide
      rw [hjan]
      by_cases hb : Year.has_leap_day y = true
      · rw [if_pos hb] at hstep
        rw [if_pos hb]
        omega
      · rw [if_neg hb] at hstep
        rw [if_neg hb]
        omega
    · have hme : (YearMonth.next (Date.year_month ⟨y, m, dm⟩)).first_day =
          ⟨y, m.wrapping_next, 1⟩ := by
        cases m <;> first | with_unfolding_all rfl | exact absurd rfl hdec
      rw [hme, days_since_year_zero_eq, days_since_year_zero_eq]
      have hdm : dm = raw.days_in_month m (Year.has_leap_day y) := by
        simpa [Date.year_month, YearMonth.total_days] using hlast
      subst hdm
      rw [month_rollover m _ hdec]
      omega
  · rw [if_neg hlast]
    have hs : Date.days_since_year_zero ⟨y, m, dm + 1⟩ =
        Date.days_since_year_zero ⟨y, m, dm⟩ + 1 := by
      rw [days_since_year_zero_eq, days_since_year_zero_eq, day_of_year_succ]
      omega
    exact hs

theorem prev_month_rollover (m : Month) (f : Bool) (h : m ≠ Month.January) :
    raw.day_of_year m 1 f =
      raw.day_of_year (m.wrapping_prev) (raw.days_in_month (m.wrapping_prev) f) f + 1 := by
  revert h
  cases m <;> cases f <;> decide

theorem prev_days_since (d : Date) (h : ValidDate d) :
    (d.prev).days_since_year_zero = d.days_since_year_zero - 1 := by
  obtain ⟨y, m, dm⟩ := d
  obtain ⟨h1, h2⟩ := h
  unfold Date.prev
  by_cases hfirst : dm = 1
  · rw [if_pos hfirst]
    subst hfirst
    by_cases hjan : m = Month.January
    · subst hjan
      have hme : (YearMonth.prev (Date.year_month ⟨y, Month.January, 1⟩)).last_day =
          ⟨y - 1, Month.December,
            raw.days_in_month Month.December (Year.has_leap_day (y - 1))⟩ := by
        with_unfolding_all rfl
      rw [hme, days_since_year_zero_eq, days_since_year_zero_eq]
      have hstep := yearStartAux_step (y - 1)
      have hy : y - 1 + 1 = y := by ring
      rw [hy] at hstep
      have hdec31 : ∀ f : Bool, raw.day_of_year Month.December
          (raw.days_in_month Month.December f) f = 365 + (if f then 1 else 0) := by decide
      rw [hdec31]
      have hjan1 : ∀ f : Bool, raw.day_of_year Month.January 1 f = 1 := by decide
      rw [hjan1]
      by_cases hb : Year.has_leap_day (y - 1) = true
      · rw [if_pos hb] at hstep
        rw [if_pos hb]
        omega
      · rw [if_neg hb] at hstep
        rw [if_neg hb]
        omega
    · have hme : (YearMonth.prev (Date.year_month ⟨y, m, 1⟩)).last_day =
          ⟨y, m.wrapping_prev,
            raw.days_in_month (m.wrapping_prev) (Year.has_leap_day y)⟩ := by
        cases m <;> first | with_unfolding_all rfl | exact absurd rfl hjan
      rw [hme, days_since_year_zero_eq, days_since_year_zero_eq]
      rw [prev_month_rollover m _ hjan]
      omega
  · rw [if_neg hfirst]
    have hs : Date.days_since_year_zero ⟨y, m, dm - 1⟩ =
        Date.days_since_year_zero ⟨y, m, dm⟩ - 1 := by
      rw [days_since_year_zero_eq, days_since_year_zero_eq]
      have hd : dm - 1 + 1 = dm := by
        have h1x : 1 ≤ dm := h1
        omega
      have hsucc := day_of_year_succ m (dm - 1) (Year.has_leap_day y)
      rw [hd] at hsucc
      omega
    exact hs

set_option maxRecDepth 4000 in
theorem table_roundtrip : ∀ (m : Month) (f : Bool) (k : Fin 31),
    k.1 + 1 ≤ raw.days_in_month m f →
    raw.month_and_day_from_day_of_year (raw.day_of_year m (k.1 + 1) f) f =
      some (m, k.1 + 1) := by
  decide

theorem days_in_month_le (m : Month) (f : Bool) : raw.days_in_month m f ≤ 31 := by
  cases m <;> cases f <;> decide

theorem encode_inj {y1 y2 doy1 doy2 : Int}
    (ha1 : 1 ≤ doy1) (hb1 : doy1 ≤ 365 + (if Year.has_leap_day y1 = true then 1 else 0))
    (ha2 : 1 ≤ doy2) (hb2 : doy2 ≤ 365 + (if Year.has_leap_day y2 = true then 1 else 0))
    (heq : yearStartAux y1 + doy1 = yearStartAux y2 + doy2) :
    y1 = y2 ∧ doy1 = doy2 := by
  rcases lt_trichotomy y1 y2 with hlt | heqy | hgt
  · have hsep := yearStartAux_separation hlt
    omega
  · subst heqy
    exact ⟨rfl, by omega⟩
  · have hsep := yearStartAux_separation hgt
    omega

theorem from_days_valid_range {d : Int} (hlo : -11900000 ≤ d) (hhi : d ≤ 11900000) :
    ∃ (y : Int) (m : Month) (dm : Nat),
      Date.from_days_since_year_zero d = ⟨y, m, dm⟩ ∧
      -32768 ≤ y ∧ y ≤ 32767 ∧ ValidDate ⟨y, m, dm⟩ ∧
      yearStartAux y + (raw.day_of_year m dm (Year.has_leap_day y) : Int) - 1 = d := by
  obtain ⟨y, m, dm, heq, hdm1, hdm2, henc⟩ := from_days_spec d
  have hdb := day_of_year_bounds m dm (Year.has_leap_day y) hdm1 hdm2
  have hybound : -32768 ≤ y ∧ y ≤ 32767 := by
    have henc2 := henc
    unfold yearStartAux at henc2
    by_cases hb : Year.has_leap_day y = true
    · rw [if_pos hb] at henc2
      rw [if_pos hb] at hdb
      constructor <;> omega
    · rw [if_neg hb] at henc2
      rw [if_neg hb] at hdb
      constructor <;> omega
  refine ⟨y, m, dm, ?_, hybound.1, hybound.2, ⟨hdm1, hdm2⟩, henc⟩
  rw [heq, wrapI16_eq_self hybound.1 hybound.2]

theorem from_days_days_since {d : Int} (hlo : -11900000 ≤ d) (hhi : d ≤ 11900000) :
    (Date.from_days_since_year_zero d).days_since_year_zero = d := by
  obtain ⟨y, m, dm, heq, _, _, _, henc⟩ := from_days_valid_range hlo hhi
  rw [heq, days_since_year_zero_eq, henc]

theorem days_since_from_days (dt : Date) (hv : ValidDate dt)
    (hy1 : -32768 ≤ dt.year) (hy2 : dt.year ≤ 32767) :
    Date.from_days_since_year_zero dt.days_since_year_zero = dt := by
  obtain ⟨y0, m0, dm0⟩ := dt
  obtain ⟨h1, h2⟩ := hv
  have h1x : 1 ≤ dm0 := h1
  have h2x : dm0 ≤ raw.days_in_month m0 (Year.has_leap_day y0) := h2
  have hy1x : -32768 ≤ y0 := hy1
  have hy2x : y0 ≤ 32767 := hy2
  have hdb0 := day_of_year_bounds m0 dm0 (Year.has_leap_day y0) h1x h2x
  have hdenc : Date.days_since_year_zero ⟨y0, m0, dm0⟩ =
      yearStartAux y0 + (raw.day_of_year m0 dm0 (Year.has_leap_day y0) : Int) - 1 :=
    days_since_year_zero_eq y0 m0 dm0
  obtain ⟨y, m, dm, heq, hdm1, hdm2, henc⟩ :=
    from_days_spec (Date.days_since_year_zero ⟨y0, m0, dm0⟩)
  have hdb := day_of_year_bounds m dm (Year.has_leap_day y) hdm1 hdm2
  have hinj := @encode_inj y y0
    ((raw.day_of_year m dm (Year.has_leap_day y) : Int))
    ((raw.day_of_year m0 dm0 (Year.has_leap_day y0) : Int))
    (by omega) (by exact_mod_cast hdb.2) (by omega) (by exact_mod_cast hdb0.2)
    (by omega)
  obtain ⟨hyy, hdoy⟩ := hinj
  subst hyy
  have hdoyn : raw.day_of_year m dm (Year.has_leap_day y) =
      raw.day_of_year m0 dm0 (Year.has_leap_day y) := by omega
  have hle31 := days_in_month_le m (Year.has_leap_day y)
  have hle31x := days_in_month_le m0 (Year.has_leap_day y)
  have hrt := table_roundtrip m (Year.has_leap_day y) ⟨dm - 1, by omega⟩
    (by simpa [show dm - 1 + 1 = dm from by omega] using hdm2)
  have hrt0 := table_roundtrip m0 (Year.has_leap_day y) ⟨dm0 - 1, by omega⟩
    (by simpa [show dm0 - 1 + 1 = dm0 from by omega] using h2x)
  rw [show dm - 1 + 1 = dm from by omega] at hrt
  rw [show dm0 - 1 + 1 = dm0 from by omega] at hrt0
  rw [hdoyn] at hrt
  rw [hrt0] at hrt
  obtain ⟨hmm, hdd⟩ : m0 = m ∧ dm0 = dm := by
    have := hrt
    injection this with h
    injection h with ha hb
    exact ⟨ha, hb⟩
  subst hmm
  subst hdd
  rw [heq, wrapI16_eq_self (by omega) (by omega)]

/-- C1: the claimed two-sided round trip between dates and day counts fails
on the program for every year in -32768..=-32401: there the `i16`
subtraction `self.year().to_number() - years` inside
`Date::days_since_year_zero` overflows (panic in a debug build, wrap in a
release build), even though the year itself is representable.  Evaluating
the release (wrapping) semantics at the valid date -32768-01-01 gives day
count 11845545, and `Date::from_days_since_year_zero` maps 11845545 to
32432-01-01, not back to -32768-01-01.  On the overflow-free years
-32400..=32767 the round trip does hold in both directions
(`from_days_days_since` and `days_since_from_days`). -/
theorem claim_C1_code_bug :
    ValidDate ⟨-32768, Month.January, 1⟩ ∧
    Date.days_since_year_zero_wrapping ⟨-32768, Month.January, 1⟩ =
      11845545 ∧
    Date.from_days_since_year_zero 11845545 = ⟨32432, Month.January, 1⟩ ∧
    Date.from_days_since_year_zero
        (Date.days_since_year_zero_wrapping ⟨-32768, Month.January, 1⟩) ≠
      ⟨-32768, Month.January, 1⟩ := by
  refine ⟨by decide, by decide, by decide, by decide⟩

/-- C2: the date 0000-01-01 maps to day 0, and on every valid date in the
ten-cycle range, `Date::next` advances `days_since_year_zero` by exactly one
while `Date::prev` decreases it by exactly one, so iterating them
enumerates the day counts 0, 1, 2, ... and 0, -1, -2, ... in lockstep. -/
theorem claim_C2_enumeration :
    Date.days_since_year_zero ⟨0, Month.January, 1⟩ = 0 ∧
    (∀ d : Date, ValidDate d →
      -(10 * 146097) ≤ d.days_since_year_zero →
      d.days_since_year_zero ≤ 10 * 146097 →
      (d.next).days_since_year_zero = d.days_since_year_zero + 1 ∧
        (d.prev).days_since_year_zero = d.days_since_year_zero - 1) := by
  refine ⟨by decide, ?_⟩
  intro d hv _ _
  exact ⟨next_days_since d hv, prev_days_since d hv⟩

/-- Witness for C2 at year boundaries: next of 2020-12-31 and prev of
2020-01-01. -/
theorem claim_C2_enumeration_witness :
    (Date.next ⟨2020, Month.December, 31⟩).days_since_year_zero =
      Date.days_since_year_zero ⟨2020, Month.December, 31⟩ + 1 ∧
    (Date.prev ⟨2020, Month.January, 1⟩).days_since_year_zero =
      Date.days_since_year_zero ⟨2020, Month.January, 1⟩ - 1 :=
  ⟨(claim_C2_enumeration.2 ⟨2020, Month.December, 31⟩ (by decide) (by decide)
      (by decide)).1,
    (claim_C2_enumeration.2 ⟨2020, Month.January, 1⟩ (by decide) (by decide)
      (by decide)).2⟩

/-- C6: `Year::has_leap_day` holds exactly when the year is divisible by 4
and either not divisible by 100 or divisible by 400; year 0 is a leap year
with 366 days, 2020 and 2000 are leap years, 1900 and 2021 are not. -/
theorem claim_C6_leap_rule :
    (∀ y : Int, Year.has_leap_day y = true ↔
      (4 ∣ y ∧ (¬(100 ∣ y) ∨ 400 ∣ y))) ∧
    Year.has_leap_day 0 = true ∧ Year.total_days 0 = 366 ∧
    Year.has_leap_day 2020 = true ∧ Year.has_leap_day 2000 = true ∧
    Year.has_leap_day 1900 = false ∧ Year.has_leap_day 2021 = false := by
  refine ⟨?_, by decide, by decide, by decide, by decide, by decide, by decide⟩
  intro y
  rw [has_leap_day_iff, Int.dvd_iff_emod_eq_zero, Int.dvd_iff_emod_eq_zero,
    Int.dvd_iff_emod_eq_zero]

/-- C10: the `Date`-level subtraction methods do not negate their argument:
`Date::sub_months` and `Date::sub_years` compute exactly `Date::add_months`
and `Date::add_years`, unlike `YearMonth::sub_months` and
`YearMonth::sub_years`, which negate, and `Date::sub_days`, which
subtracts. -/
theorem claim_C10_sub_is_add :
    (∀ (d : Date) (n : Int), d.sub_months n = d.add_months n) ∧
    (∀ (d : Date) (k : Int), d.sub_years k = d.add_years k) ∧
    (∀ (ym : YearMonth) (n : Int), ym.sub_months n = ym.add_months (-n)) ∧
    (∀ (ym : YearMonth) (k : Int), ym.sub_years k = ⟨ym.year - k, ym.month⟩) ∧
    (∀ (d : Date) (n : Int), d.sub_days n =
      Date.from_days_since_year_zero (d.days_since_year_zero - n)) :=
  ⟨fun _ _ => rfl, fun _ _ => rfl, fun _ _ => rfl, fun _ _ => rfl,
    fun _ _ => rfl⟩

/-- C8: `YearMonth::with_day` succeeds exactly on days between 1 and the
month length, and otherwise fails with an `InvalidDayOfMonth` carrying the
year, month and day; on that error `next_valid` is the first day of the
following month and `prev_valid` the last day of the target month. -/
theorem claim_C8_with_day :
    ∀ (y : Int) (m : Month) (d : Nat),
      ((YearMonth.mk y m).with_day d = .ok ⟨y, m, d⟩ ↔
        1 ≤ d ∧ d ≤ (YearMonth.mk y m).total_days) ∧
      ((YearMonth.mk y m).with_day d = .error ⟨y, m, d⟩ ↔
        ¬(1 ≤ d ∧ d ≤ (YearMonth.mk y m).total_days)) ∧
      InvalidDayOfMonth.next_valid ⟨y, m, d⟩ =
        (YearMonth.next ⟨y, m⟩).first_day ∧
      InvalidDayOfMonth.prev_valid ⟨y, m, d⟩ = (YearMonth.mk y m).last_day := by
  intro y m d
  unfold YearMonth.with_day InvalidDayOfMonth.check
  dsimp only
  refine ⟨?_, ?_, rfl, rfl⟩ <;> split_ifs with h
  · exact iff_of_false not_false (by omega)
  · exact iff_of_true rfl (by omega)
  · exact iff_of_true rfl (by omega)
  · exact iff_of_false not_false (by omega)

/-- Witness for C8 at 2021-02-30: the day is invalid, and recovery gives
2021-03-01 and 2021-02-28. -/
theorem claim_C8_with_day_witness :
    (YearMonth.mk 2021 Month.February).with_day 30 =
      .error ⟨2021, Month.February, 30⟩ ∧
    InvalidDayOfMonth.next_valid ⟨2021, Month.February, 30⟩ =
      (YearMonth.next ⟨2021, Month.February⟩).first_day ∧
    InvalidDayOfMonth.prev_valid ⟨2021, Month.February, 30⟩ =
      (YearMonth.mk 2021 Month.February).last_day :=
  ⟨((claim_C8_with_day 2021 Month.February 30).2.1).mpr (by decide),
    (claim_C8_with_day 2021 Month.February 30).2.2.1,
    (claim_C8_with_day 2021 Month.February 30).2.2.2⟩

theorem wrapping_add_eq (m : Month) (c : Int) (h1 : -128 ≤ c) (h2 : c ≤ 127) :
    m.wrapping_add c =
      Month.from_number (((m.to_number : Int) - 1 + c) % 12 + 1) := by
  unfold Month.wrapping_add
  dsimp only
  have hmn := Month.to_number_bounds m
  obtain ⟨cc, hcceq, hcc0, hcc12, hccm⟩ :
      ∃ cc : Int, (if c < 0 then c.tmod 12 + 12 else c.tmod 12) = cc ∧
        0 ≤ cc ∧ cc ≤ 12 ∧ cc % 12 = c % 12 := by
    rw [tmod_to_emod c (show (0:Int) < 12 by norm_num)]
    split_ifs with hneg hpos hpos
    · exact ⟨_, rfl, by omega, by omega, by omega⟩
    · exact ⟨_, rfl, by omega, by omega, by omega⟩
    · exact ⟨_, rfl, by omega, by omega, by omega⟩
    · exact ⟨_, rfl, by omega, by omega, by omega⟩
  rw [hcceq, Int.tmod_eq_emod (by omega) (by norm_num)]
  exact congrArg Month.from_number (by omega)

theorem wrapping_sub_eq (m : Month) (c : Int) :
    m.wrapping_sub c =
      Month.from_number (((m.to_number : Int) - 1 - c) % 12 + 1) := by
  unfold Month.wrapping_sub
  have hb := tmod_to_emod c (show (0:Int) < 12 by norm_num)
  have h1 : -128 ≤ -(c.tmod 12) := by
    rw [hb]
    split_ifs <;> omega
  have h2 : -(c.tmod 12) ≤ 127 := by
    rw [hb]
    split_ifs <;> omega
  rw [wrapping_add_eq m _ h1 h2]
  refine congrArg Month.from_number ?_
  rw [hb]
  split_ifs <;> omega

theorem from_number_shift (m : Month) (j : Int)
    (h : ((m.to_number : Int) - 1 + j) % 12 + 1 = (m.to_number : Int)) :
    Month.from_number (((m.to_number : Int) - 1 + j) % 12 + 1) = m := by
  rw [h]
  exact Month.from_number_to_number m

/-- C7: for every month and every `i8` count, `wrapping_add` lands on the
month whose zero-based index is the floored modulo of index plus count, and
`wrapping_sub` is `wrapping_add` of the negated reduced count; adding any
multiple of 12 is the identity, January minus one month is December,
December plus one month is January, and the intermediate reduced count
stays within 0..12 so no `i8` computation can overflow. -/
theorem claim_C7_month_wrapping :
    (∀ (m : Month) (c : Int), -128 ≤ c → c ≤ 127 →
      m.wrapping_add c =
        Month.from_number (((m.to_number : Int) - 1 + c) % 12 + 1) ∧
      m.wrapping_sub c =
        Month.from_number (((m.to_number : Int) - 1 - c) % 12 + 1) ∧
      0 ≤ (if c < 0 then c.tmod 12 + 12 else c.tmod 12) ∧
      (if c < 0 then c.tmod 12 + 12 else c.tmod 12) ≤ 12 ∧
      0 ≤ (m.to_number : Int) - 1 +
        (if c < 0 then c.tmod 12 + 12 else c.tmod 12) ∧
      (m.to_number : Int) - 1 +
        (if c < 0 then c.tmod 12 + 12 else c.tmod 12) ≤ 23) ∧
    (∀ (m : Month) (k : Int), -10 ≤ k → k ≤ 10 →
      m.wrapping_add (12 * k) = m) ∧
    Month.January.wrapping_add (-1) = Month.December ∧
    Month.December.wrapping_add 1 = Month.January := by
  refine ⟨?_, ?_, by decide, by decide⟩
  · intro m c h1 h2
    have hmn := Month.to_number_bounds m
    have hb := tmod_to_emod c (show (0:Int) < 12 by norm_num)
    refine ⟨wrapping_add_eq m c h1 h2, wrapping_sub_eq m c, ?_, ?_, ?_, ?_⟩ <;>
      rw [hb] <;> split_ifs <;> omega
  · intro m k hk1 hk2
    have hmn := Month.to_number_bounds m
    rw [wrapping_add_eq m _ (by omega) (by omega)]
    exact from_number_shift m (12 * k) (by omega)

/-- Witness for C7 at the extreme count `i8::MIN = -128` and at `k = -10`. -/
theorem claim_C7_month_wrapping_witness :
    Month.January.wrapping_add (-128) =
      Month.from_number (((Month.January.to_number : Int) - 1 + -128) % 12 + 1) ∧
    Month.February.wrapping_add (12 * -10) = Month.February :=
  ⟨(claim_C7_month_wrapping.1 Month.January (-128) (by norm_num) (by norm_num)).1,
    claim_C7_month_wrapping.2.1 Month.February (-10) (by norm_num) (by norm_num)⟩

theorem to_number_from_number (j : Int) (h1 : 1 ≤ j) (h2 : j ≤ 12) :
    ((Month.from_number j).to_number : Int) = j := by
  interval_cases j <;> decide

theorem add_months_eq (ym : YearMonth) (n : Int)
    (h1 : -390000 ≤ n) (h2 : n ≤ 390000) :
    ym.add_months n =
      ⟨ym.year + ((ym.month.to_number : Int) - 1 + n) / 12,
        Month.from_number (((ym.month.to_number : Int) - 1 + n) % 12 + 1)⟩ := by
  obtain ⟨y, m⟩ := ym
  unfold YearMonth.add_months
  dsimp only
  have hmb := Month.to_number_bounds m
  have hmod := tmod_to_emod ((m.to_number : Int) - 1 + n) (show (0:Int) < 12 by norm_num)
  have hdiv := tdiv_to_ediv ((m.to_number : Int) - 1 + n) (show (0:Int) < 12 by norm_num)
  have hdb1 : -32768 ≤ ((m.to_number : Int) - 1 + n).tdiv 12 := by
    rw [hdiv]
    split_ifs <;> omega
  have hdb2 : ((m.to_number : Int) - 1 + n).tdiv 12 ≤ 32767 := by
    rw [hdiv]
    split_ifs <;> omega
  rw [wrapI16_eq_self hdb1 hdb2]
  have hr1 : -11 ≤ ((m.to_number : Int) - 1 + n).tmod 12 := by
    rw [hmod]
    split_ifs <;> omega
  have hr2 : ((m.to_number : Int) - 1 + n).tmod 12 ≤ 11 := by
    rw [hmod]
    split_ifs <;> omega
  rw [wrapping_add_eq Month.January _ (by omega) (by omega)]
  have hyear : (if ((m.to_number : Int) - 1 + n).tmod 12 < 0 then
        y + ((m.to_number : Int) - 1 + n).tdiv 12 - 1
      else y + ((m.to_number : Int) - 1 + n).tdiv 12) =
      y + ((m.to_number : Int) - 1 + n) / 12 := by
    rw [hdiv, hmod]
    split_ifs <;> omega
  rw [hyear]
  have hmonth : ((Month.January.to_number : Int) - 1 +
        ((m.to_number : Int) - 1 + n).tmod 12) % 12 + 1 =
      ((m.to_number : Int) - 1 + n) % 12 + 1 := by
    rw [hmod]
    split_ifs <;> simp only [Month.to_number, Nat.cast_ofNat, Nat.cast_one] <;> omega
  rw [hmonth]

/-- C3: `YearMonth::add_months` uses floored division semantics on the
zero-based month index (a base of -1 gives year offset -1 and December),
and consequently adding 12k months equals adding k years, and month
additions compose, whenever the resulting years fit in the year type. -/
theorem claim_C3_add_months :
    (∀ (ym : YearMonth) (n : Int), -390000 ≤ n → n ≤ 390000 →
      ym.add_months n =
        ⟨ym.year + ((ym.month.to_number : Int) - 1 + n) / 12,
          Month.from_number (((ym.month.to_number : Int) - 1 + n) % 12 + 1)⟩) ∧
    YearMonth.add_months ⟨0, Month.January⟩ (-1) = ⟨-1, Month.December⟩ ∧
    (∀ (ym : YearMonth) (k : Int), -32000 ≤ k → k ≤ 32000 →
      ym.add_months (12 * k) = ym.add_years k) ∧
    (∀ (ym : YearMonth) (a b : Int), -150000 ≤ a → a ≤ 150000 →
      -150000 ≤ b → b ≤ 150000 →
      (ym.add_months a).add_months b = ym.add_months (a + b)) := by
  refine ⟨fun ym n h1 h2 => add_months_eq ym n h1 h2, by decide, ?_, ?_⟩
  · intro ym k hk1 hk2
    obtain ⟨y, m⟩ := ym
    have hmb := Month.to_number_bounds m
    rw [add_months_eq _ _ (by omega) (by omega)]
    unfold YearMonth.add_years
    dsimp only
    have hy : y + ((m.to_number : Int) - 1 + 12 * k) / 12 = y + k := by omega
    rw [hy, from_number_shift m (12 * k) (by omega)]
  · intro ym a b ha1 ha2 hb1 hb2
    obtain ⟨y, m⟩ := ym
    have hmb := Month.to_number_bounds m
    rw [add_months_eq _ _ (by omega) (by omega)]
    rw [add_months_eq _ _ (by omega) (by omega)]
    rw [add_months_eq _ _ (by omega) (by omega)]
    dsimp only
    rw [to_number_from_number (((m.to_number : Int) - 1 + a) % 12 + 1)
      (by omega) (by omega)]
    have hyy : y + ((m.to_number : Int) - 1 + a) / 12 +
        (((m.to_number : Int) - 1 + a) % 12 + 1 - 1 + b) / 12 =
        y + ((m.to_number : Int) - 1 + (a + b)) / 12 := by omega
    rw [hyy]
    refine congrArg (YearMonth.mk _) (congrArg Month.from_number ?_)
    omega

/-- Witness for C3: the floored form at 1999-11 plus 26 months, adding -24
months equals subtracting 2 years, and composition at concrete offsets. -/
theorem claim_C3_add_months_witness :
    YearMonth.add_months ⟨1999, Month.November⟩ 26 =
      ⟨1999 + ((Month.November.to_number : Int) - 1 + 26) / 12,
        Month.from_number (((Month.November.to_number : Int) - 1 + 26) % 12 + 1)⟩ ∧
    YearMonth.add_months ⟨2000, Month.March⟩ (12 * -2) =
      YearMonth.add_years ⟨2000, Month.March⟩ (-2) ∧
    (YearMonth.add_months ⟨2000, Month.March⟩ (-7)).add_months 31 =
      YearMonth.add_months ⟨2000, Month.March⟩ (-7 + 31) :=
  ⟨claim_C3_add_months.1 ⟨1999, Month.November⟩ 26 (by norm_num) (by norm_num),
    claim_C3_add_months.2.2.1 ⟨2000, Month.March⟩ (-2) (by norm_num) (by norm_num),
    claim_C3_add_months.2.2.2 ⟨2000, Month.March⟩ (-7) 31 (by norm_num)
      (by norm_num) (by norm_num) (by norm_num)⟩

/-- C5: `Date::from_unix_timestamp` computes its day index as the floored
quotient of the seconds by 86400 (manually adjusting Rust's truncating
division for negative non-multiples), and the concrete boundary values
match: 1970-01-01 maps to timestamp 0, timestamp 86400 to 1970-01-02, and
timestamp -1 to 1969-12-31. -/
theorem from_unix_floor (s : Int) (h1 : -100000000000000 ≤ s)
    (h2 : s ≤ 100000000000000) :
    Date.from_unix_timestamp s =
      Date.from_days_since_year_zero (UNIX_EPOCH + s / 86400) := by
  unfold Date.from_unix_timestamp
  dsimp only
  refine congrArg Date.from_days_since_year_zero (congrArg (UNIX_EPOCH + ·) ?_)
  have hfl : (if s < 0 ∧ s ≠ s.tdiv (24 * 3600) * 24 * 3600 then
      s.tdiv (24 * 3600) - 1 else s.tdiv (24 * 3600)) = s / 86400 := by
    rw [tdiv_to_ediv s (show (0:Int) < 24 * 3600 by norm_num)]
    have h86 : (24 : Int) * 3600 = 86400 := by norm_num
    rw [h86]
    split_ifs <;> omega
  rw [hfl, wrapI32_eq_self (by omega) (by omega)]

theorem claim_C5_unix :
    (∀ s : Int, -100000000000000 ≤ s → s ≤ 100000000000000 →
      Date.from_unix_timestamp s =
        Date.from_days_since_year_zero (UNIX_EPOCH + s / 86400)) ∧
    Date.to_unix_timestamp ⟨1970, Month.January, 1⟩ = 0 ∧
    Date.from_unix_timestamp 86400 = ⟨1970, Month.January, 2⟩ ∧
    Date.from_unix_timestamp (-1) = ⟨1969, Month.December, 31⟩ :=
  ⟨from_unix_floor, by decide, by decide, by decide⟩

/-- Witness for C5 at a negative non-multiple of 86400, where floored and
truncated division differ. -/
theorem claim_C5_unix_witness :
    Date.from_unix_timestamp (-100000) =
      Date.from_days_since_year_zero (UNIX_EPOCH + -100000 / 86400) :=
  claim_C5_unix.1 (-100000) (by norm_num) (by norm_num)

theorem digit_char_is_digit (d : Nat) (h : d < 10) :
    is_ascii_digit (digit_char d) = true := by
  interval_cases d <;> decide

theorem digit_char_val (d : Nat) (h : d < 10) :
    (digit_char d).toNat - 48 = d := by
  interval_cases d <;> decide

theorem is_digit_ne (c : Char) (h : is_ascii_digit c = true) :
    c ≠ '-' ∧ c ≠ '+' := by
  constructor <;> rintro rfl <;> simp [is_ascii_digit] at h

theorem digits_val_snoc (xs : List Char) (c : Char) :
    digits_val (xs ++ [c]) = digits_val xs * 10 + (c.toNat - 48) := by
  unfold digits_val
  rw [List.foldl_append]
  rfl

theorem nat_digit_chars_core_spec :
    ∀ fuel n : Nat, n < fuel →
      nat_digit_chars_core fuel n ≠ [] ∧
        (nat_digit_chars_core fuel n).all is_ascii_digit = true ∧
        digits_val (nat_digit_chars_core fuel n) = n
  | 0, n, h => absurd h (by omega)
  | fuel + 1, n, h => by
    have hunf : nat_digit_chars_core (fuel + 1) n =
        (if n < 10 then [digit_char n]
          else nat_digit_chars_core fuel (n / 10) ++ [digit_char (n % 10)]) := rfl
    rw [hunf]
    split_ifs with h10
    · refine ⟨by simp, ?_, ?_⟩
      · simp [List.all, digit_char_is_digit n h10]
      · show digits_val ([] ++ [digit_char n]) = n
        rw [digits_val_snoc]
        have := digit_char_val n h10
        simp [digits_val]
        omega
    · obtain ⟨hne, hall, hval⟩ :=
        nat_digit_chars_core_spec fuel (n / 10) (by omega)
      refine ⟨by simp, ?_, ?_⟩
      · rw [List.all_append, hall]
        simp [List.all, digit_char_is_digit (n % 10) (by omega)]
      · rw [digits_val_snoc, hval, digit_char_val (n % 10) (by omega)]
        omega

theorem nat_digit_chars_spec (n : Nat) :
    nat_digit_chars n ≠ [] ∧ (nat_digit_chars n).all is_ascii_digit = true ∧
      digits_val (nat_digit_chars n) = n :=
  nat_digit_chars_core_spec (n + 1) n (by omega)

theorem digits_val_pad (k : Nat) (xs : List Char) :
    digits_val (List.replicate k '0' ++ xs) = digits_val xs := by
  induction k with
  | zero => simp
  | succ k ih =>
    rw [List.replicate_succ, List.cons_append]
    show List.foldl (fun a c => a * 10 + (c.toNat - 48))
      (0 * 10 + ('0'.toNat - 48)) (List.replicate k '0' ++ xs) = digits_val xs
    have h0 : 0 * 10 + ('0'.toNat - 48) = 0 := by decide
    rw [h0]
    exact ih

theorem pad_left_spec (w : Nat) (xs : List Char) (hne : xs ≠ [])
    (hall : xs.all is_ascii_digit = true) :
    pad_left w xs ≠ [] ∧ (pad_left w xs).all is_ascii_digit = true ∧
      digits_val (pad_left w xs) = digits_val xs := by
  unfold pad_left
  refine ⟨by simp [hne], ?_, digits_val_pad _ xs⟩
  rw [List.all_append, hall]
  simp
  exact Or.inr (by decide)

theorem not_mem_of_all_digit {xs : List Char} (hall : xs.all is_ascii_digit = true)
    {c : Char} (hc : is_ascii_digit c = false) : c ∉ xs := by
  intro hmem
  have := List.all_eq_true.mp hall c hmem
  rw [hc] at this
  exact Bool.noConfusion this

theorem split_once_append (A B : List Char) (hA : '-' ∉ A) :
    split_once '-' (A ++ '-' :: B) = some (A, B) := by
  induction A with
  | nil => simp [split_once]
  | cons c rest ih =>
    have hc : c ≠ '-' := fun h => hA (h ▸ List.mem_cons_self c rest)
    have hrest : '-' ∉ rest := fun h => hA (List.mem_cons_of_mem c h)
    rw [List.cons_append]
    show (if c = '-' then some ([], rest ++ '-' :: B)
      else (split_once '-' (rest ++ '-' :: B)).map fun p => (c :: p.1, p.2)) =
      some (c :: rest, B)
    rw [if_neg hc, ih hrest]
    rfl

theorem parse_nat_digits_of (xs : List Char) (hne : xs ≠ [])
    (hall : xs.all is_ascii_digit = true) :
    parse_nat_digits xs = some (digits_val xs) := by
  unfold parse_nat_digits
  rw [if_pos ⟨hne, hall⟩]

theorem parse_i16_digits (xs : List Char) (hne : xs ≠ [])
    (hall : xs.all is_ascii_digit = true) (hle : digits_val xs ≤ 32767) :
    parse_i16 xs = some ((digits_val xs : Nat) : Int) := by
  obtain ⟨c, cs, rfl⟩ : ∃ c cs, xs = c :: cs := by
    cases xs with
    | nil => exact absurd rfl hne
    | cons c cs => exact ⟨c, cs, rfl⟩
  have hcd : is_ascii_digit c = true := by
    have := List.all_eq_true.mp hall c (List.mem_cons_self c cs)
    simpa using this
  obtain ⟨hm, hp⟩ := is_digit_ne c hcd
  show (if c = '-' then _ else if c = '+' then _ else
    (parse_nat_digits (c :: cs)).bind fun n =>
      if n ≤ 32767 then some ((n : Int)) else none) = _
  rw [if_neg hm, if_neg hp, parse_nat_digits_of _ hne hall]
  show (if digits_val (c :: cs) ≤ 32767 then
    some ((digits_val (c :: cs) : Nat) : Int) else none) = _
  rw [if_pos hle]

theorem parse_u8_digits (xs : List Char) (hne : xs ≠ [])
    (hall : xs.all is_ascii_digit = true) (hle : digits_val xs ≤ 255) :
    parse_u8 xs = some (digits_val xs) := by
  obtain ⟨c, cs, rfl⟩ : ∃ c cs, xs = c :: cs := by
    cases xs with
    | nil => exact absurd rfl hne
    | cons c cs => exact ⟨c, cs, rfl⟩
  have hcd : is_ascii_digit c = true := by
    have := List.all_eq_true.mp hall c (List.mem_cons_self c cs)
    simpa using this
  obtain ⟨hm, hp⟩ := is_digit_ne c hcd
  show (if c = '+' then _ else
    (parse_nat_digits (c :: cs)).bind fun n =>
      if n ≤ 255 then some n else none) = _
  rw [if_neg hp, parse_nat_digits_of _ hne hall]
  show (if digits_val (c :: cs) ≤ 255 then some (digits_val (c :: cs)) else none) = _
  rw [if_pos hle]

theorem month_new_to_number (m : Month) : Month.new m.to_number = .ok m := by
  cases m <;> rfl

theorem split_once_head (B : List Char) : split_once '-' ('-' :: B) = some ([], B) := by
  show (if '-' = '-' then some (([] : List Char), B)
    else (split_once '-' B).map fun p => ('-' :: p.1, p.2)) = some ([], B)
  rw [if_pos rfl]

theorem parse_format (y : Int) (m : Month) (dm : Nat) (hv : ValidDate ⟨y, m, dm⟩)
    (hy0 : 0 ≤ y) (hy : y ≤ 32767) :
    Date.from_str (Date.format ⟨y, m, dm⟩) = .ok ⟨y, m, dm⟩ := by
  obtain ⟨h1, h2⟩ := hv
  have h1x : 1 ≤ dm := h1
  have h2x : dm ≤ raw.days_in_month m (Year.has_leap_day y) := h2
  have hdm31 : dm ≤ 31 :=
    le_trans h2x (days_in_month_le m (Year.has_leap_day y))
  have hmb := Month.to_number_bounds m
  obtain ⟨hyne, hyall, hyval⟩ := nat_digit_chars_spec y.toNat
  obtain ⟨hAne, hAall, hAval⟩ := pad_left_spec 4 _ hyne hyall
  obtain ⟨hmne, hmall, hmval⟩ := nat_digit_chars_spec m.to_number
  obtain ⟨hBne, hBall, hBval⟩ := pad_left_spec 2 _ hmne hmall
  obtain ⟨hdne, hdall, hdval⟩ := nat_digit_chars_spec dm
  obtain ⟨hCne, hCall, hCval⟩ := pad_left_spec 2 _ hdne hdall
  unfold Date.format format_i16_width4 format_nat_width2
  rw [if_neg (by omega : ¬(y < 0))]
  unfold Date.from_str
  rw [split_once_append _ _ (not_mem_of_all_digit hAall (by decide))]
  dsimp only
  rw [split_once_append _ _ (not_mem_of_all_digit hBall (by decide))]
  dsimp only
  rw [parse_i16_digits _ hAne hAall (by rw [hAval, hyval]; omega)]
  dsimp only
  rw [parse_u8_digits _ hBne hBall (by rw [hBval, hmval]; omega)]
  dsimp only
  rw [parse_u8_digits _ hCne hCall (by rw [hCval, hdval]; omega)]
  dsimp only
  rw [hAval, hyval, Int.toNat_of_nonneg hy0, hBval, hmval, hCval, hdval]
  unfold Date.new
  rw [month_new_to_number m]
  dsimp only
  unfold Year.with_month YearMonth.with_day InvalidDayOfMonth.check
  dsimp only
  have h2t : dm ≤ (YearMonth.mk y m).total_days := h2x
  rw [if_neg (by omega : ¬(dm < 1 ∨ dm > (YearMonth.mk y m).total_days))]

theorem parse_format_neg (y : Int) (m : Month) (dm : Nat) (hy : y < 0) :
    Date.from_str (Date.format ⟨y, m, dm⟩) = .error .invalidDateFormat := by
  obtain ⟨hyne, hyall, hyval⟩ := nat_digit_chars_spec (-y).toNat
  obtain ⟨hAne, hAall, hAval⟩ := pad_left_spec 3 _ hyne hyall
  unfold Date.format format_i16_width4 format_nat_width2
  rw [if_pos hy]
  unfold Date.from_str
  rw [List.cons_append, split_once_head]
  dsimp only
  rw [split_once_append _ _ (not_mem_of_all_digit hAall (by decide))]
  dsimp only
  rfl

/-- C4 counterexample: 0001-01-01 BC (year -1) is a valid date, but parsing
its canonical formatted string "-001-01-01" does not return it: the leading
sign is consumed as a field separator by `splitn`, so parsing fails. -/
theorem claim_C4_counterexample :
    ValidDate ⟨-1, Month.January, 1⟩ ∧
    Date.from_str (Date.format ⟨-1, Month.January, 1⟩) ≠
      .ok ⟨-1, Month.January, 1⟩ := by
  decide

/-- C4 (amended): parsing inverts formatting for every valid date with a
non-negative year; for negative years the canonical string fails to parse
with a syntax error; "not-a-date" fails with a syntax error and
"2019-30-12" fails with an invalid-date error for month number 30. -/
theorem claim_C4_parse_format :
    (∀ dt : Date, ValidDate dt → 0 ≤ dt.year → dt.year ≤ 32767 →
      Date.from_str (Date.format dt) = .ok dt) ∧
    (∀ dt : Date, dt.year < 0 →
      Date.from_str (Date.format dt) = .error .invalidDateFormat) ∧
    Date.from_str ("not-a-date".toList) = .error .invalidDateFormat ∧
    Date.from_str ("2019-30-12".toList) =
      .error (.invalidDate (.invalidMonthNumber ⟨30⟩)) := by
  refine ⟨?_, ?_, by decide, by decide⟩
  · intro dt hv h0 h1
    obtain ⟨y, m, dm⟩ := dt
    exact parse_format y m dm hv h0 h1
  · intro dt hneg
    obtain ⟨y, m, dm⟩ := dt
    exact parse_format_neg y m dm hneg

/-- Witness for C4 (amended) at 2020-01-02 and at year -1. -/
theorem claim_C4_parse_format_witness :
    Date.from_str (Date.format ⟨2020, Month.January, 2⟩) =
      .ok ⟨2020, Month.January, 2⟩ ∧
    Date.from_str (Date.format ⟨-1, Month.January, 1⟩) =
      .error .invalidDateFormat :=
  ⟨claim_C4_parse_format.1 ⟨2020, Month.January, 2⟩ (by decide) (by decide)
      (by decide),
    claim_C4_parse_format.2.1 ⟨-1, Month.January, 1⟩ (by decide)⟩

theorem days_in_month_pos (m : Month) (f : Bool) : 1 ≤ raw.days_in_month m f := by
  cases m <;> cases f <;> decide

theorem with_day_valid {ym : YearMonth} {d : Nat} {dt : Date}
    (h : YearMonth.with_day ym d = .ok dt) : ValidDate dt := by
  obtain ⟨y, m⟩ := ym
  unfold YearMonth.with_day InvalidDayOfMonth.check at h
  by_cases hc : d < 1 ∨ d > (YearMonth.mk y m).total_days
  · rw [if_pos hc] at h
    exact absurd h (by simp)
  · rw [if_neg hc] at h
    simp only [] at h
    injection h with h
    subst h
    have hc2 : ¬(d < 1 ∨ d > raw.days_in_month m (Year.has_leap_day y)) := hc
    exact ⟨(by omega : 1 ≤ d),
      (by omega : d ≤ raw.days_in_month m (Year.has_leap_day y))⟩

theorem new_valid {y : Int} {mo d : Nat} {dt : Date}
    (h : Date.new y mo d = .ok dt) : ValidDate dt := by
  unfold Date.new at h
  split at h
  · exact Except.noConfusion h
  · split at h
    · exact Except.noConfusion h
    · rename_i heq
      injection h with h
      subst h
      exact with_day_valid heq

theorem from_str_valid {cs : List Char} {dt : Date}
    (h : Date.from_str cs = .ok dt) : ValidDate dt := by
  unfold Date.from_str at h
  split at h
  · exact Except.noConfusion h
  · split at h
    · exact Except.noConfusion h
    · split at h
      · exact Except.noConfusion h
      · split at h
        · exact Except.noConfusion h
        · split at h
          · exact Except.noConfusion h
          · split at h
            · exact Except.noConfusion h
            · rename_i heq
              injection h with h
              subst h
              exact new_valid heq

theorem with_day_of_year_valid {y : Int} {doy : Nat} {dt : Date}
    (h : Year.with_day_of_year y doy = .ok dt) : ValidDate dt := by
  unfold Year.with_day_of_year at h
  split at h
  · rename_i m dom heq
    injection h with h
    subst h
    obtain ⟨hd1, hd2, _, _, _⟩ := table_valid heq
    exact ⟨hd1, hd2⟩
  · exact Except.noConfusion h

theorem first_day_valid (ym : YearMonth) : ValidDate ym.first_day := by
  obtain ⟨y, m⟩ := ym
  exact ⟨le_refl 1, days_in_month_pos m (Year.has_leap_day y)⟩

theorem last_day_valid (ym : YearMonth) : ValidDate ym.last_day := by
  obtain ⟨y, m⟩ := ym
  exact ⟨days_in_month_pos m (Year.has_leap_day y), le_refl _⟩

theorem next_preserves_valid (d : Date) (h : ValidDate d) : ValidDate d.next := by
  obtain ⟨y, m, dm⟩ := d
  obtain ⟨h1, h2⟩ := h
  have h1x : 1 ≤ dm := h1
  have h2x : dm ≤ raw.days_in_month m (Year.has_leap_day y) := h2
  unfold Date.next
  by_cases hl : dm = (Date.year_month ⟨y, m, dm⟩).total_days
  · rw [if_pos hl]
    exact first_day_valid _
  · rw [if_neg hl]
    have hl2 : ¬dm = raw.days_in_month m (Year.has_leap_day y) := hl
    exact ⟨(by omega : 1 ≤ dm + 1),
      (by omega : dm + 1 ≤ raw.days_in_month m (Year.has_leap_day y))⟩

theorem prev_preserves_valid (d : Date) (h : ValidDate d) : ValidDate d.prev := by
  obtain ⟨y, m, dm⟩ := d
  obtain ⟨h1, h2⟩ := h
  have h1x : 1 ≤ dm := h1
  have h2x : dm ≤ raw.days_in_month m (Year.has_leap_day y) := h2
  unfold Date.prev
  by_cases hf : dm = 1
  · rw [if_pos hf]
    exact last_day_valid _
  · rw [if_neg hf]
    exact ⟨(by omega : 1 ≤ dm - 1),
      (by omega : dm - 1 ≤ raw.days_in_month m (Year.has_leap_day y))⟩

/-- C9 counterexample: `Date::from_days_since_year_zero` is a safe public
operation, yet at day count 12139259 (which encodes 29 February of year
33236, a leap year) the `as i16` cast wraps the year to -32300, which is
not a leap year, so the returned date 29 February -32300 violates the
validity invariant.  The same invalid date is reached through
`Date::add_days`: at -32500-01-01 the overflowing `i16` subtraction inside
`days_since_year_zero` makes a release build compute day count 11943430
(see `Date.days_since_year_zero_wrapping`), so adding 195829 days lands
exactly on day count 12139259. -/
theorem claim_C9_counterexample :
    Date.from_days_since_year_zero 12139259 =
      ⟨-32300, Month.February, 29⟩ ∧
    Date.days_since_year_zero_wrapping ⟨-32500, Month.January, 1⟩ + 195829 =
      12139259 ∧
    ¬ValidDate (Date.from_days_since_year_zero 12139259) := by
  decide

/-- C9 (amended): every safe public operation establishes or preserves the
validity invariant, with the day-count constructors
(`from_days_since_year_zero`, `from_unix_timestamp`, `add_days`)
restricted to inputs whose computed year fits in `i16` (outside of it the
year wraps and the invariant can fail, see the counterexample).  For
`add_days` the starting date must in addition have year at least -32400 —
for years -32768..=-32401 the `i16` subtraction inside
`days_since_year_zero` itself overflows — and the day-count guard is
stated on the release (wrapping) day count
`Date.days_since_year_zero_wrapping`, which is the value the program
actually adds to. -/
theorem claim_C9_invariant :
    (∀ (y : Int) (mo d : Nat) (dt : Date),
      Date.new y mo d = .ok dt → ValidDate dt) ∧
    (∀ (cs : List Char) (dt : Date),
      Date.from_str cs = .ok dt → ValidDate dt) ∧
    (∀ dd : Int, -11900000 ≤ dd → dd ≤ 11900000 →
      ValidDate (Date.from_days_since_year_zero dd)) ∧
    (∀ s : Int, -900000000000 ≤ s → s ≤ 900000000000 →
      ValidDate (Date.from_unix_timestamp s)) ∧
    (∀ d : Date, ValidDate d → ValidDate d.next ∧ ValidDate d.prev) ∧
    (∀ (d : Date) (n : Int), -32400 ≤ d.year → d.year ≤ 32767 →
      -11900000 ≤ d.days_since_year_zero_wrapping + n →
      d.days_since_year_zero_wrapping + n ≤ 11900000 →
      d.add_days n = Date.from_days_since_year_zero
          (d.days_since_year_zero_wrapping + n) ∧
        ValidDate (d.add_days n)) ∧
    (∀ (y : Int) (doy : Nat) (dt : Date),
      Year.with_day_of_year y doy = .ok dt → ValidDate dt) ∧
    (∀ y : Int, ValidDate (Year.first_day y) ∧ ValidDate (Year.last_day y)) ∧
    (∀ ym : YearMonth, ValidDate ym.first_day ∧ ValidDate ym.last_day) := by
  have hfd : ∀ dd : Int, -11900000 ≤ dd → dd ≤ 11900000 →
      ValidDate (Date.from_days_since_year_zero dd) := by
    intro dd hd1 hd2
    obtain ⟨y, m, dm, heq, _, _, hv, _⟩ := from_days_valid_range hd1 hd2
    rw [heq]
    exact hv
  refine ⟨fun _ _ _ _ h => new_valid h, fun _ _ h => from_str_valid h, hfd,
    ?_, fun d h => ⟨next_preserves_valid d h, prev_preserves_valid d h⟩,
    ?_, fun _ _ _ h => with_day_of_year_valid h, ?_, ?_⟩
  · intro s h1 h2
    rw [from_unix_floor s (by omega) (by omega)]
    refine hfd _ ?_ ?_ <;> unfold UNIX_EPOCH DAYS_IN_400_YEAR <;> omega
  · intro d n hy1 hy2 h1 h2
    obtain ⟨y, m, dm⟩ := d
    have hy1x : -32400 ≤ y := hy1
    have hy2x : y ≤ 32767 := hy2
    rw [days_since_wrapping_eq y m dm hy1x hy2x] at h1 h2 ⊢
    refine ⟨rfl, ?_⟩
    unfold Date.add_days
    exact hfd _ h1 h2
  · intro y
    refine ⟨⟨le_refl 1, days_in_month_pos Month.January _⟩, ⟨?_, ?_⟩⟩
    · show 1 ≤ (31 : Nat)
      omega
    · show (31 : Nat) ≤ raw.days_in_month Month.December (Year.has_leap_day y)
      cases hb : Year.has_leap_day y <;> decide
  · exact fun ym => ⟨first_day_valid ym, last_day_valid ym⟩

/-- Witness for C9 (amended) at concrete inputs: `Date::new 2020-02-29` is
valid, the unix epoch day count is valid, timestamp 0 is valid, and adding
31 days to 2020-01-01 yields a valid date. -/
theorem claim_C9_invariant_witness :
    ValidDate ⟨2020, Month.February, 29⟩ ∧
    ValidDate (Date.from_days_since_year_zero 719528) ∧
    ValidDate (Date.from_unix_timestamp 0) ∧
    ValidDate (Date.add_days ⟨2020, Month.January, 1⟩ 31) :=
  ⟨claim_C9_invariant.1 2020 2 29 ⟨2020, Month.February, 29⟩ (by decide),
    claim_C9_invariant.2.2.1 719528 (by norm_num) (by norm_num),
    claim_C9_invariant.2.2.2.1 0 (by norm_num) (by norm_num),
    (claim_C9_invariant.2.2.2.2.2.1 ⟨2020, Month.January, 1⟩ 31 (by decide)
      (by decide) (by decide) (by decide)).2⟩

end Gregorian

